import Mathlib

/-!
Shallow embedding of the NFS LAYOUT_WCC client engine
(XDR codec, transport framing and transaction ids, retry engine,
TTL/LRU cache, connection pool), with theorems settling the spec claims.

Modelling conventions: Python `bytes`/`str` values are lists of byte
values (`List Nat`, entries below 256 where it matters); 32/64-bit
integers are `Nat` reduced modulo `2^32`/`2^64` exactly where the wire
format forces a width (struct.pack instead raises on out-of-range
values, a case excluded by the well-formedness bounds used in the
theorems); raising an exception is `Except.error`; wall-clock instants
are `Nat` time stamps; float backoff delays are exact rationals.
-/

/-- Big-endian interpretation of a byte list (struct.unpack "!I" / "!Q"). -/
def beNat (l : List Nat) : Nat := l.foldl (fun acc b => acc * 256 + b) 0

/-- NFS data type tags for XDR encoding. -/
def NFSType.LAYOUT_WCC : Nat := 1
def NFSType.DEVICEID : Nat := 2
def NFSType.STATEID : Nat := 3
def NFSType.FILEHANDLE : Nat := 4
def NFSType.ATTRIBUTE : Nat := 5

/-- Required padding to align a length to 4 bytes. -/
def XDRPadding.calculate (length : Nat) : Nat := (4 - length % 4) % 4

/-- bytes.ljust: pad on the right with `fill` up to width `n`
(no change when already at least `n` long). -/
def ljust (b : List Nat) (n : Nat) (fill : Nat) : List Nat :=
  b ++ List.replicate (n - b.length) fill

/-- ASCII code of the lowercase hex digit for `d < 16`. -/
def hexDigit (d : Nat) : Nat := if d < 10 then 48 + d else 87 + d

/-- The two hex-digit character codes of one byte (bytes.hex on one byte). -/
def hexByte (b : Nat) : List Nat := [hexDigit (b / 16 % 16), hexDigit (b % 16)]

/-- bytes.hex(): hex rendering of a byte string, as its character codes. -/
def hexStr (l : List Nat) : List Nat := l.flatMap hexByte

/-- Sparse attribute set: size / mtime present or absent. -/
structure Attrs where
  size : Option Nat
  mtime : Option Nat
  deriving Repr, DecidableEq

/-- State id: sequence number plus opaque `other` bytes. -/
structure StateId where
  seqid : Nat
  other : List Nat
  deriving Repr, DecidableEq

/-- Data server entry of a mirror. -/
structure DataServer where
  device_id : List Nat
  state_id : StateId
  file_handles : List (List Nat)
  attributes : Attrs
  deriving Repr, DecidableEq

/-- Mirror: identifier plus its data servers. -/
structure Mirror where
  mirror_id : List Nat
  data_servers : List DataServer
  deriving Repr, DecidableEq

/-- Layout descriptor: the mirrors array. -/
structure Layout where
  mirrors : List Mirror
  deriving Repr, DecidableEq

/-- Encode a 32-bit big-endian integer (struct.pack "!I"), value reduced mod 2^32. -/
def XDREncoder.encode_uint32 (v : Nat) : List Nat :=
  [v / 2 ^ 24 % 256, v / 2 ^ 16 % 256, v / 2 ^ 8 % 256, v % 256]

/-- Encode a 64-bit big-endian integer (struct.pack "!Q"), value reduced mod 2^64. -/
def XDREncoder.encode_uint64 (v : Nat) : List Nat :=
  [v / 2 ^ 56 % 256, v / 2 ^ 48 % 256, v / 2 ^ 40 % 256, v / 2 ^ 32 % 256,
   v / 2 ^ 24 % 256, v / 2 ^ 16 % 256, v / 2 ^ 8 % 256, v % 256]

/-- Length-prefixed, zero-padded string encoding. -/
def XDREncoder.encode_string (s : List Nat) : List Nat :=
  XDREncoder.encode_uint32 s.length ++ s ++
    List.replicate (XDRPadding.calculate s.length) 0

/-- Fixed-length opaque data: fails unless the data is exactly `length` bytes. -/
def XDREncoder.encode_fixed_opaque (data : List Nat) (length : Nat) :
    Except String (List Nat) :=
  if data.length = length then .ok data
  else .error "Fixed opaque data length mismatch"

/-- Length-prefixed, zero-padded variable opaque encoding. -/
def XDREncoder.encode_variable_opaque (data : List Nat) : List Nat :=
  XDREncoder.encode_uint32 data.length ++ data ++
    List.replicate (XDRPadding.calculate data.length) 0

/-- Device id encoding: type tag then 16-byte fixed opaque of the id's bytes. -/
def XDREncoder.encode_deviceid (device_id : List Nat) : Except String (List Nat) :=
  match XDREncoder.encode_fixed_opaque device_id 16 with
  | .error e => .error e
  | .ok b => .ok (XDREncoder.encode_uint32 NFSType.DEVICEID ++ b)

/-- State id encoding: tag, seqid, then the `other` bytes left-justified
(NUL-padded) to 12 and required to be exactly 12 bytes. -/
def XDREncoder.encode_stateid (s : StateId) : Except String (List Nat) :=
  match XDREncoder.encode_fixed_opaque (ljust s.other 12 0) 12 with
  | .error e => .error e
  | .ok b => .ok (XDREncoder.encode_uint32 NFSType.STATEID ++
      XDREncoder.encode_uint32 (s.seqid % 2 ^ 32) ++ b)

/-- File handle encoding: tag then variable opaque of the handle's bytes. -/
def XDREncoder.encode_filehandle (h : List Nat) : List Nat :=
  XDREncoder.encode_uint32 NFSType.FILEHANDLE ++
    XDREncoder.encode_variable_opaque h

/-- Attribute mask from the attributes present (bit0 size, bit1 mtime). -/
def XDREncoder.calculate_attribute_mask (a : Attrs) : Nat :=
  (if a.size.isSome then 1 else 0) ||| (if a.mtime.isSome then 2 else 0)

/-- Attribute set encoding: tag, mask, then the present 8-byte values
in ascending bit order. -/
def XDREncoder.encode_attributes (a : Attrs) : List Nat :=
  XDREncoder.encode_uint32 NFSType.ATTRIBUTE ++
    XDREncoder.encode_uint32 (XDREncoder.calculate_attribute_mask a) ++
    (match a.size with
     | some v => XDREncoder.encode_uint64 v
     | none => []) ++
    (match a.mtime with
     | some v => XDREncoder.encode_uint64 v
     | none => [])

/-- Sequential encoding of a list of items, aborting on the first failure
(the element-by-element body of `_encode_array`). -/
def encodeListE (f : α → Except String (List Nat)) : List α → Except String (List Nat)
  | [] => .ok []
  | x :: xs =>
    match f x with
    | .error e => .error e
    | .ok b =>
      match encodeListE f xs with
      | .error e => .error e
      | .ok bs => .ok (b ++ bs)

/-- Data server encoding: device id, state id, file handle array, attributes. -/
def XDREncoder.encode_data_server (s : DataServer) : Except String (List Nat) :=
  match XDREncoder.encode_deviceid s.device_id with
  | .error e => .error e
  | .ok db =>
    match XDREncoder.encode_stateid s.state_id with
    | .error e => .error e
    | .ok sb => .ok (db ++ sb ++
        XDREncoder.encode_uint32 s.file_handles.length ++
        (s.file_handles.map XDREncoder.encode_filehandle).flatten ++
        XDREncoder.encode_attributes s.attributes)

/-- Mirror encoding: mirror id string, then the data server array
(count followed by the elements). -/
def XDREncoder.encode_mirror (m : Mirror) : Except String (List Nat) :=
  match encodeListE XDREncoder.encode_data_server m.data_servers with
  | .error e => .error e
  | .ok body => .ok (XDREncoder.encode_string m.mirror_id ++
      XDREncoder.encode_uint32 m.data_servers.length ++ body)

/-- LAYOUT_WCC encoding: type tag then the mirrors array. -/
def XDREncoder.encode_layout_wcc (d : Layout) : Except String (List Nat) :=
  match encodeListE XDREncoder.encode_mirror d.mirrors with
  | .error e => .error e
  | .ok body => .ok (XDREncoder.encode_uint32 NFSType.LAYOUT_WCC ++
      XDREncoder.encode_uint32 d.mirrors.length ++ body)

/-- Bounds-checked read of `len` bytes at `off`; truncation error when the
buffer ends first. -/
def XDRDecoder.read_bytes (data : List Nat) (off len : Nat) :
    Except String (List Nat × Nat) :=
  if off + len > data.length then .error "Unexpected end of data"
  else .ok ((data.drop off).take len, off + len)

/-- Bounds-checked skip of `len` bytes at `off`. -/
def XDRDecoder.skip_bytes (data : List Nat) (off len : Nat) :
    Except String Nat :=
  if off + len > data.length then .error "Unexpected end of data"
  else .ok (off + len)

/-- Decode a 32-bit big-endian integer. -/
def XDRDecoder.decode_uint32 (data : List Nat) (off : Nat) :
    Except String (Nat × Nat) :=
  match XDRDecoder.read_bytes data off 4 with
  | .error e => .error e
  | .ok (b, o) => .ok (beNat b, o)

/-- Decode a 64-bit big-endian integer. -/
def XDRDecoder.decode_uint64 (data : List Nat) (off : Nat) :
    Except String (Nat × Nat) :=
  match XDRDecoder.read_bytes data off 8 with
  | .error e => .error e
  | .ok (b, o) => .ok (beNat b, o)

/-- Decode a length-prefixed string, skipping its alignment padding. -/
def XDRDecoder.decode_string (data : List Nat) (off : Nat) :
    Except String (List Nat × Nat) :=
  match XDRDecoder.decode_uint32 data off with
  | .error e => .error e
  | .ok (len, o1) =>
    match XDRDecoder.read_bytes data o1 len with
    | .error e => .error e
    | .ok (s, o2) =>
      match XDRDecoder.skip_bytes data o2 (XDRPadding.calculate len) with
      | .error e => .error e
      | .ok o3 => .ok (s, o3)

/-- Decode fixed-length opaque data. -/
def XDRDecoder.decode_fixed_opaque (data : List Nat) (off len : Nat) :
    Except String (List Nat × Nat) :=
  XDRDecoder.read_bytes data off len

/-- Decode length-prefixed variable opaque data, skipping its padding. -/
def XDRDecoder.decode_variable_opaque (data : List Nat) (off : Nat) :
    Except String (List Nat × Nat) :=
  match XDRDecoder.decode_uint32 data off with
  | .error e => .error e
  | .ok (len, o1) =>
    match XDRDecoder.read_bytes data o1 len with
    | .error e => .error e
    | .ok (s, o2) =>
      match XDRDecoder.skip_bytes data o2 (XDRPadding.calculate len) with
      | .error e => .error e
      | .ok o3 => .ok (s, o3)

/-- Decode a device id: tag check, 16 fixed bytes, returned in hex form
(the source's `.hex()` on the raw bytes). -/
def XDRDecoder.decode_deviceid (data : List Nat) (off : Nat) :
    Except String (List Nat × Nat) :=
  match XDRDecoder.decode_uint32 data off with
  | .error e => .error e
  | .ok (t, o1) =>
    if t ≠ NFSType.DEVICEID then .error "Invalid device ID type"
    else
      match XDRDecoder.decode_fixed_opaque data o1 16 with
      | .error e => .error e
      | .ok (b, o2) => .ok (hexStr b, o2)

/-- Decode a state id: tag check, seqid, 12 fixed `other` bytes. -/
def XDRDecoder.decode_stateid (data : List Nat) (off : Nat) :
    Except String (StateId × Nat) :=
  match XDRDecoder.decode_uint32 data off with
  | .error e => .error e
  | .ok (t, o1) =>
    if t ≠ NFSType.STATEID then .error "Invalid state ID type"
    else
      match XDRDecoder.decode_uint32 data o1 with
      | .error e => .error e
      | .ok (seqid, o2) =>
        match XDRDecoder.decode_fixed_opaque data o2 12 with
        | .error e => .error e
        | .ok (other, o3) => .ok (⟨seqid, other⟩, o3)

/-- Decode a file handle: tag check, variable opaque, returned in hex form. -/
def XDRDecoder.decode_filehandle (data : List Nat) (off : Nat) :
    Except String (List Nat × Nat) :=
  match XDRDecoder.decode_uint32 data off with
  | .error e => .error e
  | .ok (t, o1) =>
    if t ≠ NFSType.FILEHANDLE then .error "Invalid file handle type"
    else
      match XDRDecoder.decode_variable_opaque data o1 with
      | .error e => .error e
      | .ok (b, o2) => .ok (hexStr b, o2)

/-- Decode one optional 8-byte attribute value, read only when its mask
bit is set. -/
def XDRDecoder.decode_attr_field (data : List Nat) (off : Nat) (present : Bool) :
    Except String (Option Nat × Nat) :=
  if present then
    match XDRDecoder.decode_uint64 data off with
    | .error e => .error e
    | .ok (v, o) => .ok (some v, o)
  else .ok (none, off)

/-- Decode the attribute set: tag check, mask, then size / mtime when the
corresponding mask bit is set; unknown mask bits select nothing and are
not retained. -/
def XDRDecoder.decode_attributes (data : List Nat) (off : Nat) :
    Except String (Attrs × Nat) :=
  match XDRDecoder.decode_uint32 data off with
  | .error e => .error e
  | .ok (t, o1) =>
    if t ≠ NFSType.ATTRIBUTE then .error "Invalid attribute type"
    else
      match XDRDecoder.decode_uint32 data o1 with
      | .error e => .error e
      | .ok (mask, o2) =>
        match XDRDecoder.decode_attr_field data o2 (mask &&& 1 ≠ 0) with
        | .error e => .error e
        | .ok (size, o3) =>
          match XDRDecoder.decode_attr_field data o3 (mask &&& 2 ≠ 0) with
          | .error e => .error e
          | .ok (mtime, o4) => .ok (⟨size, mtime⟩, o4)

/-- Decode `n` consecutive homogeneous elements (the loop of `_decode_array`
after its count has been read). -/
def XDRDecoder.decode_arrayN (f : List Nat → Nat → Except String (α × Nat)) :
    Nat → List Nat → Nat → Except String (List α × Nat)
  | 0, _, off => .ok ([], off)
  | n + 1, data, off =>
    match f data off with
    | .error e => .error e
    | .ok (x, o1) =>
      match XDRDecoder.decode_arrayN f n data o1 with
      | .error e => .error e
      | .ok (xs, o2) => .ok (x :: xs, o2)

/-- Decode an array: count then that many elements. -/
def XDRDecoder.decode_array (f : List Nat → Nat → Except String (α × Nat))
    (data : List Nat) (off : Nat) : Except String (List α × Nat) :=
  match XDRDecoder.decode_uint32 data off with
  | .error e => .error e
  | .ok (n, o1) => XDRDecoder.decode_arrayN f n data o1

/-- Decode a data server entry. -/
def XDRDecoder.decode_data_server (data : List Nat) (off : Nat) :
    Except String (DataServer × Nat) :=
  match XDRDecoder.decode_deviceid data off with
  | .error e => .error e
  | .ok (dev, o1) =>
    match XDRDecoder.decode_stateid data o1 with
    | .error e => .error e
    | .ok (sid, o2) =>
      match XDRDecoder.decode_array XDRDecoder.decode_filehandle data o2 with
      | .error e => .error e
      | .ok (handles, o3) =>
        match XDRDecoder.decode_attributes data o3 with
        | .error e => .error e
        | .ok (attrs, o4) => .ok (⟨dev, sid, handles, attrs⟩, o4)

/-- Decode a mirror: id string then the data server array. -/
def XDRDecoder.decode_mirror (data : List Nat) (off : Nat) :
    Except String (Mirror × Nat) :=
  match XDRDecoder.decode_string data off with
  | .error e => .error e
  | .ok (mid, o1) =>
    match XDRDecoder.decode_array XDRDecoder.decode_data_server data o1 with
    | .error e => .error e
    | .ok (servers, o2) => .ok (⟨mid, servers⟩, o2)

/-- Decode a LAYOUT_WCC structure from the start of the buffer: type tag
check then the mirrors array. Returns the layout and the final offset. -/
def XDRDecoder.decode_layout_wcc (data : List Nat) :
    Except String (Layout × Nat) :=
  match XDRDecoder.decode_uint32 data 0 with
  | .error e => .error e
  | .ok (t, o1) =>
    if t ≠ NFSType.LAYOUT_WCC then .error "Invalid type identifier"
    else
      match XDRDecoder.decode_array XDRDecoder.decode_mirror data o1 with
      | .error e => .error e
      | .ok (mirrors, o2) => .ok (⟨mirrors⟩, o2)

/-- Inbound reassembler state: buffered bytes and the expected payload
length once a record-marking prefix has been consumed. -/
structure ReasmState where
  buffer : List Nat
  expected : Option Nat
  deriving Repr, DecidableEq

/-- One `data_received` reassembly loop, fuelled: `none` means the loop has
not finished within `fuel` iterations. Each iteration mirrors the source's
while body: with at least 4 buffered bytes, consume a 4-byte length prefix
when none is pending, then deliver the frame when enough bytes are buffered;
a body that changes nothing recurses on the same state. -/
def NFSProtocolHandler.recvLoop :
    Nat → ReasmState → List (List Nat) → Option (ReasmState × List (List Nat))
  | 0, _, _ => none
  | fuel + 1, s, msgs =>
    if s.buffer.length ≥ 4 then
      match s.expected with
      | none =>
        let exp := beNat (s.buffer.take 4)
        let buf := s.buffer.drop 4
        if buf.length ≥ exp then
          NFSProtocolHandler.recvLoop fuel ⟨buf.drop exp, none⟩
            (msgs ++ [buf.take exp])
        else
          NFSProtocolHandler.recvLoop fuel ⟨buf, some exp⟩ msgs
      | some exp =>
        if s.buffer.length ≥ exp then
          NFSProtocolHandler.recvLoop fuel ⟨s.buffer.drop exp, none⟩
            (msgs ++ [s.buffer.take exp])
        else
          NFSProtocolHandler.recvLoop fuel ⟨s.buffer, some exp⟩ msgs
    else
      some (s, msgs)

/-- The handler of received data: extend the buffer with the incoming chunk, then run the
reassembly loop. Returns the new state and the frames delivered, or `none`
when the loop exceeds the fuel. -/
def NFSProtocolHandler.data_received (fuel : Nat) (s : ReasmState)
    (data : List Nat) : Option (ReasmState × List (List Nat)) :=
  NFSProtocolHandler.recvLoop fuel ⟨s.buffer ++ data, s.expected⟩ []

/-- Transaction-id counter value after `k` allocations, starting from 0:
each allocation increments then reduces modulo 0xFFFFFFFF and returns the
new counter value, so this is also the id issued by the k-th allocation
(k ≥ 1). -/
def NFSTransportProtocol.xidAfter : Nat → Nat
  | 0 => 0
  | k + 1 => (NFSTransportProtocol.xidAfter k + 1) % 0xFFFFFFFF

/-- Retry configuration (delays as exact rationals). -/
structure RetryConfig where
  max_retries : Nat
  base_delay : Rat
  max_delay : Rat
  exponential_base : Rat
  deriving Repr, DecidableEq

/-- Outcome of invoking the wrapped operation on a given attempt:
success, a transient (transport/state) failure, or any other failure. -/
inductive AttemptOutcome where
  | success : Nat → AttemptOutcome
  | transient : String → AttemptOutcome
  | fatal : String → AttemptOutcome
  deriving Repr, DecidableEq

/-- Result of `execute_with_recovery`: a value, a raised error, or the
implicit None return when the attempt loop finishes without returning. -/
inductive RecoveryResult where
  | ok : Nat → RecoveryResult
  | raised : String → RecoveryResult
  | noneResult : RecoveryResult
  deriving Repr, DecidableEq

/-- Metrics recorded for an operation id. -/
structure OperationMetrics where
  retries : Nat
  success : Bool
  error : Option String
  deriving Repr, DecidableEq

/-- Observable trace of one `execute_with_recovery` run: its result, the
metrics left behind, the backoff delays slept in order, and the number of
times the operation was invoked. -/
structure RecoveryTrace where
  result : RecoveryResult
  metrics : OperationMetrics
  sleeps : List Rat
  calls : Nat
  deriving Repr, DecidableEq

/-- The backoff delay expression written in the source's retry branch:
min(base_delay * exponential_base^attempt, max_delay). It is statically
present but unreachable at run time, because the except clause guarding the
branch raises NameError before the branch can execute. -/
def ErrorRecoveryManager.delayFor (cfg : RetryConfig) (attempt : Nat) : Rat :=
  min (cfg.base_delay * cfg.exponential_base ^ attempt) cfg.max_delay

/-- The NameError Python raises when the except clause of
`execute_with_recovery` is evaluated: ErrorRecovery.py neither imports nor
defines NFSTransportError (and NFSStateError exists nowhere in the
repository's sources), so matching any raised exception against
`except (NFSTransportError, NFSStateError)` fails by raising this error
before any handler body runs. -/
def ErrorRecoveryManager.nameError : String :=
  "NameError: name 'NFSTransportError' is not defined"

/-- The attempt loop of `execute_with_recovery`, with `remaining` loop
iterations left and `attempt` the current 0-based attempt index. A success
returns the value and marks the metrics successful. On ANY failure, control
reaches the except clause; evaluating its tuple raises NameError (the names
are unbound in the module), which propagates at once: the retry count is
never incremented, no error text is recorded, no backoff sleep happens and
no further attempt is made. -/
def ErrorRecoveryManager.execLoop (_cfg : RetryConfig)
    (op : Nat → AttemptOutcome) :
    Nat → Nat → OperationMetrics → List Rat → Nat → RecoveryTrace
  | 0, _, m, sleeps, calls => ⟨.noneResult, m, sleeps, calls⟩
  | _ + 1, attempt, m, sleeps, calls =>
    match op attempt with
    | .success v => ⟨.ok v, { m with success := true }, sleeps, calls + 1⟩
    | .transient _ =>
      ⟨.raised ErrorRecoveryManager.nameError, m, sleeps, calls + 1⟩
    | .fatal _ =>
      ⟨.raised ErrorRecoveryManager.nameError, m, sleeps, calls + 1⟩

/-- Full execute_with_recovery for one operation id: fresh metrics, then the
attempt loop over `max_retries` iterations. -/
def ErrorRecoveryManager.execute_with_recovery (cfg : RetryConfig)
    (op : Nat → AttemptOutcome) : RecoveryTrace :=
  ErrorRecoveryManager.execLoop cfg op cfg.max_retries 0
    ⟨0, false, none⟩ [] 0

/-- Cache entry: payload (opaque id), insertion time stamp, TTL seconds. -/
structure CacheEntry where
  data : Nat
  timestamp : Nat
  ttl : Nat
  deriving Repr, DecidableEq

/-- LRU cache state: capacity, entry table, recency order (least recently
used first). -/
structure LRUCache where
  capacity : Nat
  cache : List (Nat × CacheEntry)
  usage : List Nat
  deriving Repr, DecidableEq

/-- Cache lookup (LRUCache.get): when the key is present, move it to the back of the
recency order and return its entry; otherwise leave the state alone. -/
def LRUCache.get (c : LRUCache) (k : Nat) : Option CacheEntry × LRUCache :=
  match c.cache.lookup k with
  | some e => (some e, { c with usage := c.usage.erase k ++ [k] })
  | none => (none, c)

/-- Replace the value stored under a present key, in place. -/
def assocReplace (k : Nat) (v : CacheEntry) :
    List (Nat × CacheEntry) → List (Nat × CacheEntry)
  | [] => []
  | (k', v') :: rest =>
    if k' = k then (k', v) :: rest else (k', v') :: assocReplace k v rest

/-- Cache store (the setitem operation): refresh an existing key in place; otherwise,
at capacity, evict the least recently used key first (popping the front of
an empty recency list raises); then store the entry and append the key to
the recency order. -/
def LRUCache.set (c : LRUCache) (k : Nat) (v : CacheEntry) :
    Except String LRUCache :=
  if (c.cache.lookup k).isSome then
    .ok { c with cache := assocReplace k v c.cache,
                 usage := c.usage.erase k ++ [k] }
  else if c.cache.length ≥ c.capacity then
    match c.usage with
    | [] => .error "pop from empty list"
    | oldest :: restUsage =>
      .ok { c with
        cache := (c.cache.filter (fun p => !(p.1 = oldest))) ++ [(k, v)],
        usage := restUsage ++ [k] }
  else
    .ok { c with cache := c.cache ++ [(k, v)], usage := c.usage ++ [k] }

/-- Expiry test of a cache entry at time `now`. -/
def PerformanceOptimizer.is_expired (now : Nat) (e : CacheEntry) : Bool :=
  decide (now - e.timestamp > e.ttl)

/-- Layout cache lookup (get_cached_layout): an `LRUCache.get`, returning the payload only when
the entry exists and is not expired. The recency refresh performed by
`LRUCache.get` stands regardless of expiry. -/
def PerformanceOptimizer.get_cached_layout (now : Nat) (c : LRUCache)
    (k : Nat) : Option Nat × LRUCache :=
  match LRUCache.get c k with
  | (some e, c') =>
    if ¬ PerformanceOptimizer.is_expired now e then (some e.data, c')
    else (none, c')
  | (none, c') => (none, c')

/-- Pooled connection bookkeeping for one destination. -/
structure ConnInfo where
  connId : Nat
  in_use : Bool
  created : Nat
  last_used : Nat
  deriving Repr, DecidableEq

/-- Expiry test of a pooled connection: an idle connection past the idle timeout. -/
def ConnectionManager.is_connection_expired (idle_timeout now : Nat)
    (c : ConnInfo) : Bool :=
  if !c.in_use then decide (now - c.last_used > idle_timeout) else false

/-- The scan of `_acquire_connection` over the destination's pool, in
insertion order: skip in-use connections; close and skip expired idle ones
(closing changes no pool state — the entry stays in the table); mark the
first idle non-expired connection in use and return its id. -/
def ConnectionManager.acquireScan (idle_timeout now : Nat) :
    List ConnInfo → Option (Nat × List ConnInfo)
  | [] => none
  | c :: rest =>
    if !c.in_use then
      if ConnectionManager.is_connection_expired idle_timeout now c then
        match ConnectionManager.acquireScan idle_timeout now rest with
        | some (r, rest') => some (r, c :: rest')
        | none => none
      else
        some (c.connId, { c with in_use := true, last_used := now } :: rest)
    else
      match ConnectionManager.acquireScan idle_timeout now rest with
      | some (r, rest') => some (r, c :: rest')
      | none => none

/-- Connection acquisition for one destination: reuse a connection found by
the scan; otherwise create a new one when the pool (which still counts
expired entries) is below `pool_size`; otherwise fail pool-exhausted.
New connections get a fresh id equal to the current pool length. -/
def ConnectionManager.acquire_connection (pool_size idle_timeout now : Nat)
    (pool : List ConnInfo) : Except String (Nat × List ConnInfo) :=
  match ConnectionManager.acquireScan idle_timeout now pool with
  | some (cid, pool') => .ok (cid, pool')
  | none =>
    if pool.length < pool_size then
      .ok (pool.length, pool ++ [⟨pool.length, true, now, now⟩])
    else
      .error "Connection pool exhausted"

/-- Bytes produced for a device id when encoding succeeds. -/
def deviceidBytes (dev : List Nat) : List Nat :=
  XDREncoder.encode_uint32 NFSType.DEVICEID ++ dev

/-- Bytes produced for a state id when encoding succeeds. -/
def stateidBytes (s : StateId) : List Nat :=
  XDREncoder.encode_uint32 NFSType.STATEID ++
    XDREncoder.encode_uint32 (s.seqid % 2 ^ 32) ++ ljust s.other 12 0

/-- Bytes produced for a data server entry when encoding succeeds. -/
def dsBytes (s : DataServer) : List Nat :=
  deviceidBytes s.device_id ++ stateidBytes s.state_id ++
    XDREncoder.encode_uint32 s.file_handles.length ++
    (s.file_handles.map XDREncoder.encode_filehandle).flatten ++
    XDREncoder.encode_attributes s.attributes

/-- Bytes produced for a mirror when encoding succeeds. -/
def mirrorBytes (m : Mirror) : List Nat :=
  XDREncoder.encode_string m.mirror_id ++
    XDREncoder.encode_uint32 m.data_servers.length ++
    (m.data_servers.map dsBytes).flatten

/-- Bytes produced for a layout when encoding succeeds. -/
def layoutBytes (d : Layout) : List Nat :=
  XDREncoder.encode_uint32 NFSType.LAYOUT_WCC ++
    XDREncoder.encode_uint32 d.mirrors.length ++
    (d.mirrors.map mirrorBytes).flatten

/-- What one encode/decode round trip actually returns for a data server:
device id and file handles come back as the hex rendering of their bytes,
and `other` comes back NUL-padded to 12 bytes. -/
def roundtripServer (s : DataServer) : DataServer :=
  ⟨hexStr s.device_id,
   ⟨s.state_id.seqid, ljust s.state_id.other 12 0⟩,
   s.file_handles.map hexStr,
   s.attributes⟩

/-- Round-trip image of a mirror. -/
def roundtripMirror (m : Mirror) : Mirror :=
  ⟨m.mirror_id, m.data_servers.map roundtripServer⟩

/-- Round-trip image of a layout. -/
def roundtripLayout (d : Layout) : Layout :=
  ⟨d.mirrors.map roundtripMirror⟩

/-- Well-formed attribute values fit in 64 bits. -/
def WFAttrs (a : Attrs) : Prop :=
  a.size.getD 0 < 2 ^ 64 ∧ a.mtime.getD 0 < 2 ^ 64

/-- Well-formed data server entry: 16-byte device id, `other` at most 12
bytes (the encoder pads it to 12), integer fields within wire width. -/
def WFServer (s : DataServer) : Prop :=
  s.device_id.length = 16 ∧ s.state_id.other.length ≤ 12 ∧
  s.state_id.seqid < 2 ^ 32 ∧ s.file_handles.length < 2 ^ 32 ∧
  (∀ h ∈ s.file_handles, h.length < 2 ^ 32) ∧ WFAttrs s.attributes

/-- Well-formed mirror. -/
def WFMirror (m : Mirror) : Prop :=
  m.mirror_id.length < 2 ^ 32 ∧ m.data_servers.length < 2 ^ 32 ∧
  ∀ s ∈ m.data_servers, WFServer s

/-- Well-formed layout descriptor. -/
def WFLayout (d : Layout) : Prop :=
  d.mirrors.length < 2 ^ 32 ∧ ∀ m ∈ d.mirrors, WFMirror m

/-- An attribute-set wire value with an arbitrary bitmask: tag, mask, then
the 8-byte values selected by the two known bits in ascending order. -/
def attrWire (mask sz mt : Nat) : List Nat :=
  XDREncoder.encode_uint32 NFSType.ATTRIBUTE ++
    XDREncoder.encode_uint32 mask ++
    (if mask &&& 1 ≠ 0 then XDREncoder.encode_uint64 sz else []) ++
    (if mask &&& 2 ≠ 0 then XDREncoder.encode_uint64 mt else [])

theorem length_encode_uint32 (v : Nat) : (XDREncoder.encode_uint32 v).length = 4 := rfl

theorem length_encode_uint64 (v : Nat) : (XDREncoder.encode_uint64 v).length = 8 := rfl

theorem beNat_encode_uint32 (v : Nat) :
    beNat (XDREncoder.encode_uint32 v) = v % 2 ^ 32 := by
  simp [beNat, XDREncoder.encode_uint32]
  omega

theorem beNat_encode_uint64 (v : Nat) :
    beNat (XDREncoder.encode_uint64 v) = v % 2 ^ 64 := by
  simp [beNat, XDREncoder.encode_uint64]
  omega

theorem length_ljust (b : List Nat) (n fill : Nat) (h : b.length ≤ n) :
    (ljust b n fill).length = n := by
  simp [ljust]
  omega

theorem dropChunk {data enc rest : List Nat} {off : Nat}
    (hoff : off ≤ data.length) (h : data.drop off = enc ++ rest) :
    off + enc.length ≤ data.length ∧ data.drop (off + enc.length) = rest := by
  have hl : data.length - off = enc.length + rest.length := by
    have h' := congrArg List.length h
    simpa using h'
  refine ⟨by omega, ?_⟩
  calc data.drop (off + enc.length) = (data.drop off).drop enc.length :=
        (List.drop_drop enc.length off data).symm
    _ = (enc ++ rest).drop enc.length := by rw [h]
    _ = rest := List.drop_left enc rest

theorem read_bytes_spec {data enc rest : List Nat} {off : Nat}
    (hb : off + enc.length ≤ data.length)
    (h : data.drop off = enc ++ rest) :
    XDRDecoder.read_bytes data off enc.length = .ok (enc, off + enc.length) := by
  unfold XDRDecoder.read_bytes
  rw [if_neg (by omega), h, List.take_left]

theorem read_bytes_ok {data b : List Nat} {off len off' : Nat}
    (h : XDRDecoder.read_bytes data off len = .ok (b, off')) :
    off' = off + len ∧ off + len ≤ data.length := by
  unfold XDRDecoder.read_bytes at h
  split at h
  · cases h
  · rename_i hc
    cases h
    exact ⟨rfl, by omega⟩

theorem skip_bytes_spec {data : List Nat} {off n : Nat}
    (hb : off + n ≤ data.length) :
    XDRDecoder.skip_bytes data off n = .ok (off + n) := by
  unfold XDRDecoder.skip_bytes
  rw [if_neg (by omega)]

theorem skip_bytes_ok {data : List Nat} {off len off' : Nat}
    (h : XDRDecoder.skip_bytes data off len = .ok off') :
    off' = off + len ∧ off + len ≤ data.length := by
  unfold XDRDecoder.skip_bytes at h
  split at h
  · cases h
  · rename_i hc
    cases h
    exact ⟨rfl, by omega⟩

theorem decode_uint32_spec {data rest : List Nat} {off : Nat} (v : Nat)
    (hoff : off ≤ data.length)
    (h : data.drop off = XDREncoder.encode_uint32 v ++ rest) :
    XDRDecoder.decode_uint32 data off = .ok (v % 2 ^ 32, off + 4) ∧
      data.drop (off + 4) = rest ∧ off + 4 ≤ data.length := by
  obtain ⟨hb, hd⟩ := dropChunk hoff h
  rw [length_encode_uint32] at hb hd
  have hr := @read_bytes_spec data (XDREncoder.encode_uint32 v) rest off
    (by rw [length_encode_uint32]; omega) h
  rw [length_encode_uint32] at hr
  refine ⟨?_, hd, hb⟩
  unfold XDRDecoder.decode_uint32
  rw [hr]
  simp [beNat_encode_uint32]

theorem decode_uint64_spec {data rest : List Nat} {off : Nat} (v : Nat)
    (hoff : off ≤ data.length)
    (h : data.drop off = XDREncoder.encode_uint64 v ++ rest) :
    XDRDecoder.decode_uint64 data off = .ok (v % 2 ^ 64, off + 8) ∧
      data.drop (off + 8) = rest ∧ off + 8 ≤ data.length := by
  obtain ⟨hb, hd⟩ := dropChunk hoff h
  rw [length_encode_uint64] at hb hd
  have hr := @read_bytes_spec data (XDREncoder.encode_uint64 v) rest off
    (by rw [length_encode_uint64]; omega) h
  rw [length_encode_uint64] at hr
  refine ⟨?_, hd, hb⟩
  unfold XDRDecoder.decode_uint64
  rw [hr]
  simp [beNat_encode_uint64]

theorem length_encode_string (s : List Nat) :
    (XDREncoder.encode_string s).length =
      4 + s.length + XDRPadding.calculate s.length := by
  simp [XDREncoder.encode_string, XDREncoder.encode_uint32]
  omega

theorem decode_string_spec {data s rest : List Nat} {off : Nat}
    (hlen : s.length < 2 ^ 32) (hoff : off ≤ data.length)
    (h : data.drop off = XDREncoder.encode_string s ++ rest) :
    XDRDecoder.decode_string data off =
      .ok (s, off + (XDREncoder.encode_string s).length) ∧
    data.drop (off + (XDREncoder.encode_string s).length) = rest ∧
    off + (XDREncoder.encode_string s).length ≤ data.length := by
  have hassoc : data.drop off = XDREncoder.encode_uint32 s.length ++
      (s ++ (List.replicate (XDRPadding.calculate s.length) 0 ++ rest)) := by
    simpa [XDREncoder.encode_string, List.append_assoc] using h
  obtain ⟨hu, hd1, hb1⟩ := decode_uint32_spec s.length hoff hassoc
  rw [Nat.mod_eq_of_lt hlen] at hu
  obtain ⟨hb2, hd2⟩ := dropChunk hb1 hd1
  have hr := read_bytes_spec hb2 hd1
  obtain ⟨hb3, hd3⟩ := dropChunk hb2 hd2
  rw [List.length_replicate] at hb3 hd3
  have hsk := @skip_bytes_spec data (off + 4 + s.length)
    (XDRPadding.calculate s.length) (by omega)
  have hoffeq : off + 4 + s.length + XDRPadding.calculate s.length =
      off + (XDREncoder.encode_string s).length := by
    rw [length_encode_string]; omega
  refine ⟨?_, by rw [← hoffeq]; exact hd3, by omega⟩
  simp only [XDRDecoder.decode_string, hu, hr, hsk]
  rw [hoffeq]

theorem encode_variable_opaque_length (s : List Nat) :
    (XDREncoder.encode_variable_opaque s).length =
      4 + s.length + XDRPadding.calculate s.length := by
  simp [XDREncoder.encode_variable_opaque, XDREncoder.encode_uint32]
  omega

theorem decode_variable_opaque_spec {data s rest : List Nat} {off : Nat}
    (hlen : s.length < 2 ^ 32) (hoff : off ≤ data.length)
    (h : data.drop off = XDREncoder.encode_variable_opaque s ++ rest) :
    XDRDecoder.decode_variable_opaque data off =
      .ok (s, off + (XDREncoder.encode_variable_opaque s).length) ∧
    data.drop (off + (XDREncoder.encode_variable_opaque s).length) = rest ∧
    off + (XDREncoder.encode_variable_opaque s).length ≤ data.length := by
  have hassoc : data.drop off = XDREncoder.encode_uint32 s.length ++
      (s ++ (List.replicate (XDRPadding.calculate s.length) 0 ++ rest)) := by
    simpa [XDREncoder.encode_variable_opaque, List.append_assoc] using h
  obtain ⟨hu, hd1, hb1⟩ := decode_uint32_spec s.length hoff hassoc
  rw [Nat.mod_eq_of_lt hlen] at hu
  obtain ⟨hb2, hd2⟩ := dropChunk hb1 hd1
  have hr := read_bytes_spec hb2 hd1
  obtain ⟨hb3, hd3⟩ := dropChunk hb2 hd2
  rw [List.length_replicate] at hb3 hd3
  have hsk := @skip_bytes_spec data (off + 4 + s.length)
    (XDRPadding.calculate s.length) (by omega)
  have hoffeq : off + 4 + s.length + XDRPadding.calculate s.length =
      off + (XDREncoder.encode_variable_opaque s).length := by
    rw [encode_variable_opaque_length]; omega
  refine ⟨?_, by rw [← hoffeq]; exact hd3, by omega⟩
  simp only [XDRDecoder.decode_variable_opaque, hu, hr, hsk]
  rw [hoffeq]

theorem decode_deviceid_spec {data dev rest : List Nat} {off : Nat}
    (hdev : dev.length = 16) (hoff : off ≤ data.length)
    (h : data.drop off = deviceidBytes dev ++ rest) :
    XDRDecoder.decode_deviceid data off = .ok (hexStr dev, off + 20) ∧
      data.drop (off + 20) = rest ∧ off + 20 ≤ data.length := by
  have hassoc : data.drop off =
      XDREncoder.encode_uint32 NFSType.DEVICEID ++ (dev ++ rest) := by
    simpa [deviceidBytes, List.append_assoc] using h
  obtain ⟨hu, hd1, hb1⟩ := decode_uint32_spec NFSType.DEVICEID hoff hassoc
  have hu' : XDRDecoder.decode_uint32 data off = .ok (2, off + 4) := by
    simpa [NFSType.DEVICEID] using hu
  obtain ⟨hb2, hd2⟩ := dropChunk hb1 hd1
  rw [hdev] at hb2 hd2
  have hr := @read_bytes_spec data dev rest (off + 4) (by rw [hdev]; omega) hd1
  rw [hdev] at hr
  have he : off + 4 + 16 = off + 20 := by omega
  rw [he] at hr hb2 hd2
  refine ⟨?_, hd2, hb2⟩
  simp [XDRDecoder.decode_deviceid, hu', XDRDecoder.decode_fixed_opaque, hr,
    NFSType.DEVICEID]

theorem decode_stateid_spec {data rest : List Nat} {off : Nat} (st : StateId)
    (hseq : st.seqid < 2 ^ 32) (hother : st.other.length ≤ 12)
    (hoff : off ≤ data.length)
    (h : data.drop off = stateidBytes st ++ rest) :
    XDRDecoder.decode_stateid data off =
      .ok (⟨st.seqid, ljust st.other 12 0⟩, off + 20) ∧
      data.drop (off + 20) = rest ∧ off + 20 ≤ data.length := by
  have hassoc : data.drop off = XDREncoder.encode_uint32 NFSType.STATEID ++
      (XDREncoder.encode_uint32 (st.seqid % 2 ^ 32) ++
        (ljust st.other 12 0 ++ rest)) := by
    simpa [stateidBytes, List.append_assoc] using h
  obtain ⟨hu, hd1, hb1⟩ := decode_uint32_spec NFSType.STATEID hoff hassoc
  have hu' : XDRDecoder.decode_uint32 data off = .ok (3, off + 4) := by
    simpa [NFSType.STATEID] using hu
  obtain ⟨hus, hd2, hb2⟩ := decode_uint32_spec (st.seqid % 2 ^ 32) hb1 hd1
  have hus' : XDRDecoder.decode_uint32 data (off + 4) =
      .ok (st.seqid, off + 8) := by
    rw [hus]
    simp [Nat.mod_eq_of_lt hseq]
    omega
  have h8 : off + 4 + 4 = off + 8 := by omega
  rw [h8] at hd2 hb2
  have hl12 : (ljust st.other 12 0).length = 12 := length_ljust _ _ _ hother
  obtain ⟨hb3, hd3⟩ := dropChunk hb2 hd2
  rw [hl12] at hb3 hd3
  have hr := @read_bytes_spec data (ljust st.other 12 0) rest (off + 8)
    (by rw [hl12]; omega) hd2
  rw [hl12] at hr
  have h20 : off + 8 + 12 = off + 20 := by omega
  rw [h20] at hr hb3 hd3
  refine ⟨?_, hd3, hb3⟩
  simp [XDRDecoder.decode_stateid, hu', hus', XDRDecoder.decode_fixed_opaque,
    hr, NFSType.STATEID]

theorem length_encode_filehandle (fh : List Nat) :
    (XDREncoder.encode_filehandle fh).length =
      4 + (XDREncoder.encode_variable_opaque fh).length := by
  simp [XDREncoder.encode_filehandle, XDREncoder.encode_uint32]
  omega

theorem decode_filehandle_spec {data fh rest : List Nat} {off : Nat}
    (hlen : fh.length < 2 ^ 32) (hoff : off ≤ data.length)
    (h : data.drop off = XDREncoder.encode_filehandle fh ++ rest) :
    XDRDecoder.decode_filehandle data off =
      .ok (hexStr fh, off + (XDREncoder.encode_filehandle fh).length) ∧
    data.drop (off + (XDREncoder.encode_filehandle fh).length) = rest ∧
    off + (XDREncoder.encode_filehandle fh).length ≤ data.length := by
  have hassoc : data.drop off =
      XDREncoder.encode_uint32 NFSType.FILEHANDLE ++
        (XDREncoder.encode_variable_opaque fh ++ rest) := by
    simpa [XDREncoder.encode_filehandle, List.append_assoc] using h
  obtain ⟨hu, hd1, hb1⟩ := decode_uint32_spec NFSType.FILEHANDLE hoff hassoc
  have hu' : XDRDecoder.decode_uint32 data off = .ok (4, off + 4) := by
    simpa [NFSType.FILEHANDLE] using hu
  obtain ⟨hv, hd2, hb2⟩ := decode_variable_opaque_spec hlen hb1 hd1
  have hoffeq : off + 4 + (XDREncoder.encode_variable_opaque fh).length =
      off + (XDREncoder.encode_filehandle fh).length := by
    rw [length_encode_filehandle]; omega
  rw [hoffeq] at hv hd2 hb2
  refine ⟨?_, hd2, hb2⟩
  simp [XDRDecoder.decode_filehandle, hu', hv, NFSType.FILEHANDLE]

theorem decode_attributes_spec {data rest : List Nat} {off : Nat} (a : Attrs)
    (hs : a.size.getD 0 < 2 ^ 64) (hm : a.mtime.getD 0 < 2 ^ 64)
    (hoff : off ≤ data.length)
    (h : data.drop off = XDREncoder.encode_attributes a ++ rest) :
    XDRDecoder.decode_attributes data off =
      .ok (a, off + (XDREncoder.encode_attributes a).length) ∧
    data.drop (off + (XDREncoder.encode_attributes a).length) = rest ∧
    off + (XDREncoder.encode_attributes a).length ≤ data.length := by
  obtain ⟨size, mtime⟩ := a
  cases size with
  | none =>
    cases mtime with
    | none =>
      have hlen8 : (XDREncoder.encode_attributes ⟨none, none⟩).length = 8 := by
        simp [XDREncoder.encode_attributes, XDREncoder.calculate_attribute_mask,
          XDREncoder.encode_uint32]
      have hassoc : data.drop off =
          XDREncoder.encode_uint32 NFSType.ATTRIBUTE ++
            (XDREncoder.encode_uint32 0 ++ rest) := by
        simpa [XDREncoder.encode_attributes, XDREncoder.calculate_attribute_mask,
          List.append_assoc] using h
      obtain ⟨hu, hd1, hb1⟩ := decode_uint32_spec NFSType.ATTRIBUTE hoff hassoc
      have hu' : XDRDecoder.decode_uint32 data off = .ok (5, off + 4) := by
        simpa [NFSType.ATTRIBUTE] using hu
      obtain ⟨hmk, hd2, hb2⟩ := decode_uint32_spec 0 hb1 hd1
      have hmk' : XDRDecoder.decode_uint32 data (off + 4) = .ok (0, off + 8) := by
        simpa using hmk
      have h8 : off + 4 + 4 = off + 8 := by omega
      rw [h8] at hd2 hb2
      rw [hlen8]
      refine ⟨?_, hd2, hb2⟩
      simp [XDRDecoder.decode_attributes, hu', hmk',
        XDRDecoder.decode_attr_field, NFSType.ATTRIBUTE]
    | some mt =>
      have hmt : mt < 2 ^ 64 := by simpa using hm
      have hlen16 : (XDREncoder.encode_attributes ⟨none, some mt⟩).length = 16 := by
        simp [XDREncoder.encode_attributes, XDREncoder.calculate_attribute_mask,
          XDREncoder.encode_uint32, XDREncoder.encode_uint64]
      have hassoc : data.drop off =
          XDREncoder.encode_uint32 NFSType.ATTRIBUTE ++
            (XDREncoder.encode_uint32 2 ++
              (XDREncoder.encode_uint64 mt ++ rest)) := by
        simpa [XDREncoder.encode_attributes, XDREncoder.calculate_attribute_mask,
          List.append_assoc] using h
      obtain ⟨hu, hd1, hb1⟩ := decode_uint32_spec NFSType.ATTRIBUTE hoff hassoc
      have hu' : XDRDecoder.decode_uint32 data off = .ok (5, off + 4) := by
        simpa [NFSType.ATTRIBUTE] using hu
      obtain ⟨hmk, hd2, hb2⟩ := decode_uint32_spec 2 hb1 hd1
      have hmk' : XDRDecoder.decode_uint32 data (off + 4) = .ok (2, off + 8) := by
        simpa using hmk
      have h8 : off + 4 + 4 = off + 8 := by omega
      rw [h8] at hd2 hb2
      obtain ⟨hv, hd3, hb3⟩ := decode_uint64_spec mt hb2 hd2
      have hv' : XDRDecoder.decode_uint64 data (off + 8) =
          .ok (mt, off + 16) := by
        rw [hv]
        simp [Nat.mod_eq_of_lt hmt]
        omega
      have h16 : off + 8 + 8 = off + 16 := by omega
      rw [h16] at hd3 hb3
      rw [hlen16]
      refine ⟨?_, hd3, hb3⟩
      simp [XDRDecoder.decode_attributes, hu', hmk', hv',
        XDRDecoder.decode_attr_field, NFSType.ATTRIBUTE]
  | some sz =>
    have hsz : sz < 2 ^ 64 := by simpa using hs
    cases mtime with
    | none =>
      have hlen16 : (XDREncoder.encode_attributes ⟨some sz, none⟩).length = 16 := by
        simp [XDREncoder.encode_attributes, XDREncoder.calculate_attribute_mask,
          XDREncoder.encode_uint32, XDREncoder.encode_uint64]
      have hassoc : data.drop off =
          XDREncoder.encode_uint32 NFSType.ATTRIBUTE ++
            (XDREncoder.encode_uint32 1 ++
              (XDREncoder.encode_uint64 sz ++ rest)) := by
        simpa [XDREncoder.encode_attributes, XDREncoder.calculate_attribute_mask,
          List.append_assoc] using h
      obtain ⟨hu, hd1, hb1⟩ := decode_uint32_spec NFSType.ATTRIBUTE hoff hassoc
      have hu' : XDRDecoder.decode_uint32 data off = .ok (5, off + 4) := by
        simpa [NFSType.ATTRIBUTE] using hu
      obtain ⟨hmk, hd2, hb2⟩ := decode_uint32_spec 1 hb1 hd1
      have hmk' : XDRDecoder.decode_uint32 data (off + 4) = .ok (1, off + 8) := by
        simpa using hmk
      have h8 : off + 4 + 4 = off + 8 := by omega
      rw [h8] at hd2 hb2
      obtain ⟨hv, hd3, hb3⟩ := decode_uint64_spec sz hb2 hd2
      have hv' : XDRDecoder.decode_uint64 data (off + 8) =
          .ok (sz, off + 16) := by
        rw [hv]
        simp [Nat.mod_eq_of_lt hsz]
        omega
      have h16 : off + 8 + 8 = off + 16 := by omega
      rw [h16] at hd3 hb3
      rw [hlen16]
      refine ⟨?_, hd3, hb3⟩
      simp [XDRDecoder.decode_attributes, hu', hmk', hv',
        XDRDecoder.decode_attr_field, NFSType.ATTRIBUTE]
    | some mt =>
      have hmt : mt < 2 ^ 64 := by simpa using hm
      have hlen24 : (XDREncoder.encode_attributes ⟨some sz, some mt⟩).length = 24 := by
        simp [XDREncoder.encode_attributes, XDREncoder.calculate_attribute_mask,
          XDREncoder.encode_uint32, XDREncoder.encode_uint64]
      have hassoc : data.drop off =
          XDREncoder.encode_uint32 NFSType.ATTRIBUTE ++
            (XDREncoder.encode_uint32 3 ++
              (XDREncoder.encode_uint64 sz ++
                (XDREncoder.encode_uint64 mt ++ rest))) := by
        simpa [XDREncoder.encode_attributes, XDREncoder.calculate_attribute_mask,
          List.append_assoc] using h
      obtain ⟨hu, hd1, hb1⟩ := decode_uint32_spec NFSType.ATTRIBUTE hoff hassoc
      have hu' : XDRDecoder.decode_uint32 data off = .ok (5, off + 4) := by
        simpa [NFSType.ATTRIBUTE] using hu
      obtain ⟨hmk, hd2, hb2⟩ := decode_uint32_spec 3 hb1 hd1
      have hmk' : XDRDecoder.decode_uint32 data (off + 4) = .ok (3, off + 8) := by
        simpa using hmk
      have h8 : off + 4 + 4 = off + 8 := by omega
      rw [h8] at hd2 hb2
      obtain ⟨hv, hd3, hb3⟩ := decode_uint64_spec sz hb2 hd2
      have hv' : XDRDecoder.decode_uint64 data (off + 8) =
          .ok (sz, off + 16) := by
        rw [hv]
        simp [Nat.mod_eq_of_lt hsz]
        omega
      have h16 : off + 8 + 8 = off + 16 := by omega
      rw [h16] at hd3 hb3
      obtain ⟨hw, hd4, hb4⟩ := decode_uint64_spec mt hb3 hd3
      have hw' : XDRDecoder.decode_uint64 data (off + 16) =
          .ok (mt, off + 24) := by
        rw [hw]
        simp [Nat.mod_eq_of_lt hmt]
        omega
      have h24 : off + 16 + 8 = off + 24 := by omega
      rw [h24] at hd4 hb4
      rw [hlen24]
      refine ⟨?_, hd4, hb4⟩
      simp [XDRDecoder.decode_attributes, hu', hmk', hv', hw',
        XDRDecoder.decode_attr_field, NFSType.ATTRIBUTE]

theorem decode_arrayN_spec {α β : Type} {dec : List Nat → Nat → Except String (β × Nat)}
    {enc : α → List Nat} {f : α → β} {P : α → Prop}
    (hspec : ∀ x, P x → ∀ data off rest, off ≤ data.length →
      data.drop off = enc x ++ rest →
      dec data off = .ok (f x, off + (enc x).length) ∧
      data.drop (off + (enc x).length) = rest ∧
      off + (enc x).length ≤ data.length) :
    ∀ (xs : List α) (data : List Nat) (off : Nat) (rest : List Nat),
      (∀ x ∈ xs, P x) → off ≤ data.length →
      data.drop off = (xs.map enc).flatten ++ rest →
      XDRDecoder.decode_arrayN dec xs.length data off =
        .ok (xs.map f, off + ((xs.map enc).flatten).length) ∧
      data.drop (off + ((xs.map enc).flatten).length) = rest ∧
      off + ((xs.map enc).flatten).length ≤ data.length := by
  intro xs
  induction xs with
  | nil =>
    intro data off rest _ hoff h
    refine ⟨by simp [XDRDecoder.decode_arrayN], by simpa using h, by simpa using hoff⟩
  | cons x xs ih =>
    intro data off rest hP hoff h
    have hx : P x := hP x (by simp)
    have hassoc : data.drop off = enc x ++ ((xs.map enc).flatten ++ rest) := by
      simpa [List.append_assoc] using h
    obtain ⟨h1, hd1, hb1⟩ := hspec x hx data off _ hoff hassoc
    obtain ⟨h2, hd2, hb2⟩ :=
      ih data (off + (enc x).length) rest (fun y hy => hP y (by simp [hy])) hb1 hd1
    have hoffeq : off + (enc x).length + ((xs.map enc).flatten).length =
        off + (((x :: xs).map enc).flatten).length := by
      simp
      omega
    rw [hoffeq] at h2 hd2 hb2
    refine ⟨?_, hd2, hb2⟩
    simp only [List.length_cons, XDRDecoder.decode_arrayN, h1, h2, List.map_cons]

theorem decode_array_spec {α β : Type} {dec : List Nat → Nat → Except String (β × Nat)}
    {enc : α → List Nat} {f : α → β} {P : α → Prop}
    (hspec : ∀ x, P x → ∀ data off rest, off ≤ data.length →
      data.drop off = enc x ++ rest →
      dec data off = .ok (f x, off + (enc x).length) ∧
      data.drop (off + (enc x).length) = rest ∧
      off + (enc x).length ≤ data.length)
    (xs : List α) (hcount : xs.length < 2 ^ 32)
    {data rest : List Nat} {off : Nat}
    (hall : ∀ x ∈ xs, P x) (hoff : off ≤ data.length)
    (h : data.drop off = XDREncoder.encode_uint32 xs.length ++
      ((xs.map enc).flatten ++ rest)) :
    XDRDecoder.decode_array dec data off =
      .ok (xs.map f, off + 4 + ((xs.map enc).flatten).length) ∧
    data.drop (off + 4 + ((xs.map enc).flatten).length) = rest ∧
    off + 4 + ((xs.map enc).flatten).length ≤ data.length := by
  obtain ⟨hu, hd1, hb1⟩ := decode_uint32_spec xs.length hoff h
  have hu' : XDRDecoder.decode_uint32 data off = .ok (xs.length, off + 4) := by
    rw [hu, Nat.mod_eq_of_lt hcount]
  obtain ⟨h2, hd2, hb2⟩ := decode_arrayN_spec hspec xs data (off + 4) rest hall hb1 hd1
  refine ⟨?_, hd2, hb2⟩
  simp only [XDRDecoder.decode_array, hu', h2]

theorem encodeListE_eq {α : Type} {f : α → Except String (List Nat)}
    {g : α → List Nat} {P : α → Prop}
    (hf : ∀ x, P x → f x = .ok (g x)) :
    ∀ xs : List α, (∀ x ∈ xs, P x) →
      encodeListE f xs = .ok ((xs.map g).flatten)
  | [], _ => by simp [encodeListE]
  | x :: xs, hall => by
    have h1 := hf x (hall x (by simp))
    have h2 := encodeListE_eq hf xs (fun y hy => hall y (by simp [hy]))
    simp [encodeListE, h1, h2]

theorem encode_deviceid_eq {dev : List Nat} (h : dev.length = 16) :
    XDREncoder.encode_deviceid dev = .ok (deviceidBytes dev) := by
  simp [XDREncoder.encode_deviceid, XDREncoder.encode_fixed_opaque, h,
    deviceidBytes]

theorem encode_stateid_eq {st : StateId} (h : st.other.length ≤ 12) :
    XDREncoder.encode_stateid st = .ok (stateidBytes st) := by
  have hl : (ljust st.other 12 0).length = 12 := length_ljust _ _ _ h
  simp [XDREncoder.encode_stateid, XDREncoder.encode_fixed_opaque, hl,
    stateidBytes]

theorem encode_data_server_eq (s : DataServer) (hwf : WFServer s) :
    XDREncoder.encode_data_server s = .ok (dsBytes s) := by
  obtain ⟨hdev, hother, -, -, -, -⟩ := hwf
  simp [XDREncoder.encode_data_server, encode_deviceid_eq hdev,
    encode_stateid_eq hother, dsBytes]

theorem encode_mirror_eq (m : Mirror) (hwf : WFMirror m) :
    XDREncoder.encode_mirror m = .ok (mirrorBytes m) := by
  obtain ⟨-, -, hall⟩ := hwf
  have h := encodeListE_eq (fun s hs => encode_data_server_eq s hs)
    m.data_servers hall
  simp [XDREncoder.encode_mirror, h, mirrorBytes]

theorem encode_layout_eq (d : Layout) (hwf : WFLayout d) :
    XDREncoder.encode_layout_wcc d = .ok (layoutBytes d) := by
  obtain ⟨-, hall⟩ := hwf
  have h := encodeListE_eq (fun m hm => encode_mirror_eq m hm) d.mirrors hall
  simp [XDREncoder.encode_layout_wcc, h, layoutBytes]

theorem decode_data_server_spec (s : DataServer) (hwf : WFServer s)
    {data rest : List Nat} {off : Nat} (hoff : off ≤ data.length)
    (h : data.drop off = dsBytes s ++ rest) :
    XDRDecoder.decode_data_server data off =
      .ok (roundtripServer s, off + (dsBytes s).length) ∧
    data.drop (off + (dsBytes s).length) = rest ∧
    off + (dsBytes s).length ≤ data.length := by
  obtain ⟨hdev, hother, hseq, hcount, hhl, hsz, hmt⟩ := hwf
  have hassoc : data.drop off = deviceidBytes s.device_id ++
      (stateidBytes s.state_id ++
        (XDREncoder.encode_uint32 s.file_handles.length ++
          ((s.file_handles.map XDREncoder.encode_filehandle).flatten ++
            (XDREncoder.encode_attributes s.attributes ++ rest)))) := by
    simpa [dsBytes, List.append_assoc] using h
  obtain ⟨h1, hd1, hb1⟩ := decode_deviceid_spec hdev hoff hassoc
  obtain ⟨h2, hd2, hb2⟩ := decode_stateid_spec s.state_id hseq hother hb1 hd1
  have h40 : off + 20 + 20 = off + 40 := by omega
  rw [h40] at h2 hd2 hb2
  obtain ⟨h3, hd3, hb3⟩ := decode_array_spec
    (fun fh hfh data off rest hoff hdrop =>
      decode_filehandle_spec hfh hoff hdrop)
    s.file_handles hcount hhl hb2 hd2
  obtain ⟨h4, hd4, hb4⟩ := decode_attributes_spec s.attributes hsz hmt hb3 hd3
  have hlen : (dsBytes s).length = 44 +
      ((s.file_handles.map XDREncoder.encode_filehandle).flatten).length +
      (XDREncoder.encode_attributes s.attributes).length := by
    simp [dsBytes, deviceidBytes, stateidBytes, XDREncoder.encode_uint32,
      ljust, hdev]
    omega
  have hoffeq : off + 40 + 4 +
      ((s.file_handles.map XDREncoder.encode_filehandle).flatten).length +
      (XDREncoder.encode_attributes s.attributes).length =
      off + (dsBytes s).length := by
    rw [hlen]; omega
  rw [hoffeq] at h4 hd4 hb4
  refine ⟨?_, hd4, hb4⟩
  simp only [XDRDecoder.decode_data_server, h1, h2, h3, h4, roundtripServer]

theorem decode_mirror_spec (m : Mirror) (hwf : WFMirror m)
    {data rest : List Nat} {off : Nat} (hoff : off ≤ data.length)
    (h : data.drop off = mirrorBytes m ++ rest) :
    XDRDecoder.decode_mirror data off =
      .ok (roundtripMirror m, off + (mirrorBytes m).length) ∧
    data.drop (off + (mirrorBytes m).length) = rest ∧
    off + (mirrorBytes m).length ≤ data.length := by
  obtain ⟨hmid, hcount, hall⟩ := hwf
  have hassoc : data.drop off = XDREncoder.encode_string m.mirror_id ++
      (XDREncoder.encode_uint32 m.data_servers.length ++
        ((m.data_servers.map dsBytes).flatten ++ rest)) := by
    simpa [mirrorBytes, List.append_assoc] using h
  obtain ⟨h1, hd1, hb1⟩ := decode_string_spec hmid hoff hassoc
  obtain ⟨h2, hd2, hb2⟩ := decode_array_spec
    (fun s hs data off rest hoff hdrop =>
      decode_data_server_spec s hs hoff hdrop)
    m.data_servers hcount hall hb1 hd1
  have hlen : (mirrorBytes m).length =
      (XDREncoder.encode_string m.mirror_id).length + 4 +
      ((m.data_servers.map dsBytes).flatten).length := by
    simp [mirrorBytes, XDREncoder.encode_uint32]
    omega
  have hoffeq : off + (XDREncoder.encode_string m.mirror_id).length + 4 +
      ((m.data_servers.map dsBytes).flatten).length =
      off + (mirrorBytes m).length := by
    rw [hlen]; omega
  rw [hoffeq] at h2 hd2 hb2
  refine ⟨?_, hd2, hb2⟩
  simp only [XDRDecoder.decode_mirror, h1, h2, roundtripMirror]

theorem decode_layout_spec (d : Layout) (hwf : WFLayout d) :
    XDRDecoder.decode_layout_wcc (layoutBytes d) =
      .ok (roundtripLayout d, (layoutBytes d).length) := by
  obtain ⟨hcount, hall⟩ := hwf
  have h0 : (layoutBytes d).drop 0 =
      XDREncoder.encode_uint32 NFSType.LAYOUT_WCC ++
        (XDREncoder.encode_uint32 d.mirrors.length ++
          ((d.mirrors.map mirrorBytes).flatten ++ [])) := by
    simp [layoutBytes, List.append_assoc]
  obtain ⟨hu, hd1, hb1⟩ := decode_uint32_spec NFSType.LAYOUT_WCC
    (by omega) h0
  have hu' : XDRDecoder.decode_uint32 (layoutBytes d) 0 = .ok (1, 4) := by
    simpa [NFSType.LAYOUT_WCC] using hu
  have hd1' : (layoutBytes d).drop (0 + 4) =
      XDREncoder.encode_uint32 d.mirrors.length ++
        ((d.mirrors.map mirrorBytes).flatten ++ []) := hd1
  obtain ⟨h2, hd2, hb2⟩ := decode_array_spec
    (fun m hm data off rest hoff hdrop =>
      decode_mirror_spec m hm hoff hdrop)
    d.mirrors hcount hall hb1 hd1'
  have hlen : (layoutBytes d).length =
      8 + ((d.mirrors.map mirrorBytes).flatten).length := by
    simp [layoutBytes, XDREncoder.encode_uint32]
    omega
  have hoffeq : 0 + 4 + 4 + ((d.mirrors.map mirrorBytes).flatten).length =
      (layoutBytes d).length := by
    omega
  rw [hoffeq] at h2
  simp [XDRDecoder.decode_layout_wcc, hu', h2, roundtripLayout,
    NFSType.LAYOUT_WCC]

theorem decode_uint32_bound {data : List Nat} {off v off' : Nat}
    (h : XDRDecoder.decode_uint32 data off = .ok (v, off')) :
    off' ≤ data.length := by
  unfold XDRDecoder.decode_uint32 at h
  cases hr : XDRDecoder.read_bytes data off 4 with
  | error e => simp only [hr] at h; cases h
  | ok p =>
    obtain ⟨b, o⟩ := p
    simp only [hr] at h
    cases h
    obtain ⟨h1, h2⟩ := read_bytes_ok hr
    omega

theorem decode_uint64_bound {data : List Nat} {off v off' : Nat}
    (h : XDRDecoder.decode_uint64 data off = .ok (v, off')) :
    off' ≤ data.length := by
  unfold XDRDecoder.decode_uint64 at h
  cases hr : XDRDecoder.read_bytes data off 8 with
  | error e => simp only [hr] at h; cases h
  | ok p =>
    obtain ⟨b, o⟩ := p
    simp only [hr] at h
    cases h
    obtain ⟨h1, h2⟩ := read_bytes_ok hr
    omega

theorem decode_string_bound {data : List Nat} {off : Nat} {v : List Nat}
    {off' : Nat} (h : XDRDecoder.decode_string data off = .ok (v, off')) :
    off' ≤ data.length := by
  unfold XDRDecoder.decode_string at h
  cases h1 : XDRDecoder.decode_uint32 data off with
  | error e => simp only [h1] at h; cases h
  | ok p1 =>
    obtain ⟨len, o1⟩ := p1
    simp only [h1] at h
    cases h2 : XDRDecoder.read_bytes data o1 len with
    | error e => simp only [h2] at h; cases h
    | ok p2 =>
      obtain ⟨s, o2⟩ := p2
      simp only [h2] at h
      cases h3 : XDRDecoder.skip_bytes data o2 (XDRPadding.calculate len) with
      | error e => simp only [h3] at h; cases h
      | ok o3 =>
        simp only [h3] at h
        cases h
        obtain ⟨hs1, hs2⟩ := skip_bytes_ok h3
        omega

theorem decode_variable_opaque_bound {data : List Nat} {off : Nat}
    {v : List Nat} {off' : Nat}
    (h : XDRDecoder.decode_variable_opaque data off = .ok (v, off')) :
    off' ≤ data.length := by
  unfold XDRDecoder.decode_variable_opaque at h
  cases h1 : XDRDecoder.decode_uint32 data off with
  | error e => simp only [h1] at h; cases h
  | ok p1 =>
    obtain ⟨len, o1⟩ := p1
    simp only [h1] at h
    cases h2 : XDRDecoder.read_bytes data o1 len with
    | error e => simp only [h2] at h; cases h
    | ok p2 =>
      obtain ⟨s, o2⟩ := p2
      simp only [h2] at h
      cases h3 : XDRDecoder.skip_bytes data o2 (XDRPadding.calculate len) with
      | error e => simp only [h3] at h; cases h
      | ok o3 =>
        simp only [h3] at h
        cases h
        obtain ⟨hs1, hs2⟩ := skip_bytes_ok h3
        omega

theorem decode_deviceid_bound {data : List Nat} {off : Nat} {v : List Nat}
    {off' : Nat} (h : XDRDecoder.decode_deviceid data off = .ok (v, off')) :
    off' ≤ data.length := by
  unfold XDRDecoder.decode_deviceid at h
  cases h1 : XDRDecoder.decode_uint32 data off with
  | error e => simp only [h1] at h; cases h
  | ok p1 =>
    obtain ⟨t, o1⟩ := p1
    simp only [h1] at h
    split at h
    · cases h
    · unfold XDRDecoder.decode_fixed_opaque at h
      cases h2 : XDRDecoder.read_bytes data o1 16 with
      | error e => simp only [h2] at h; cases h
      | ok p2 =>
        obtain ⟨b, o2⟩ := p2
        simp only [h2] at h
        cases h
        obtain ⟨hs1, hs2⟩ := read_bytes_ok h2
        omega

theorem decode_stateid_bound {data : List Nat} {off : Nat} {v : StateId}
    {off' : Nat} (h : XDRDecoder.decode_stateid data off = .ok (v, off')) :
    off' ≤ data.length := by
  unfold XDRDecoder.decode_stateid at h
  cases h1 : XDRDecoder.decode_uint32 data off with
  | error e => simp only [h1] at h; cases h
  | ok p1 =>
    obtain ⟨t, o1⟩ := p1
    simp only [h1] at h
    split at h
    · cases h
    · cases h2 : XDRDecoder.decode_uint32 data o1 with
      | error e => simp only [h2] at h; cases h
      | ok p2 =>
        obtain ⟨seqid, o2⟩ := p2
        simp only [h2] at h
        unfold XDRDecoder.decode_fixed_opaque at h
        cases h3 : XDRDecoder.read_bytes data o2 12 with
        | error e => simp only [h3] at h; cases h
        | ok p3 =>
          obtain ⟨b, o3⟩ := p3
          simp only [h3] at h
          cases h
          obtain ⟨hs1, hs2⟩ := read_bytes_ok h3
          omega

theorem decode_filehandle_bound {data : List Nat} {off : Nat} {v : List Nat}
    {off' : Nat} (h : XDRDecoder.decode_filehandle data off = .ok (v, off')) :
    off' ≤ data.length := by
  unfold XDRDecoder.decode_filehandle at h
  cases h1 : XDRDecoder.decode_uint32 data off with
  | error e => simp only [h1] at h; cases h
  | ok p1 =>
    obtain ⟨t, o1⟩ := p1
    simp only [h1] at h
    split at h
    · cases h
    · cases h2 : XDRDecoder.decode_variable_opaque data o1 with
      | error e => simp only [h2] at h; cases h
      | ok p2 =>
        obtain ⟨b, o2⟩ := p2
        simp only [h2] at h
        cases h
        exact decode_variable_opaque_bound h2

theorem decode_attr_field_bound {data : List Nat} {off : Nat} {p : Bool}
    {v : Option Nat} {off' : Nat} (hoff : off ≤ data.length)
    (h : XDRDecoder.decode_attr_field data off p = .ok (v, off')) :
    off' ≤ data.length := by
  unfold XDRDecoder.decode_attr_field at h
  split at h
  · cases h1 : XDRDecoder.decode_uint64 data off with
    | error e => simp only [h1] at h; cases h
    | ok p1 =>
      obtain ⟨w, o1⟩ := p1
      simp only [h1] at h
      cases h
      exact decode_uint64_bound h1
  · cases h
    exact hoff

theorem decode_attributes_bound {data : List Nat} {off : Nat} {v : Attrs}
    {off' : Nat} (h : XDRDecoder.decode_attributes data off = .ok (v, off')) :
    off' ≤ data.length := by
  unfold XDRDecoder.decode_attributes at h
  cases h1 : XDRDecoder.decode_uint32 data off with
  | error e => simp only [h1] at h; cases h
  | ok p1 =>
    obtain ⟨t, o1⟩ := p1
    simp only [h1] at h
    split at h
    · cases h
    · cases h2 : XDRDecoder.decode_uint32 data o1 with
      | error e => simp only [h2] at h; cases h
      | ok p2 =>
        obtain ⟨mask, o2⟩ := p2
        simp only [h2] at h
        cases h3 : XDRDecoder.decode_attr_field data o2 (mask &&& 1 ≠ 0) with
        | error e => simp only [h3] at h; cases h
        | ok p3 =>
          obtain ⟨size, o3⟩ := p3
          simp only [h3] at h
          cases h4 : XDRDecoder.decode_attr_field data o3 (mask &&& 2 ≠ 0) with
          | error e => simp only [h4] at h; cases h
          | ok p4 =>
            obtain ⟨mtime, o4⟩ := p4
            simp only [h4] at h
            cases h
            exact decode_attr_field_bound
              (decode_attr_field_bound (decode_uint32_bound h2) h3) h4

theorem decode_arrayN_bound {β : Type}
    {dec : List Nat → Nat → Except String (β × Nat)}
    (hdec : ∀ data off v off', off ≤ data.length →
      dec data off = .ok (v, off') → off' ≤ data.length) :
    ∀ (n : Nat) (data : List Nat) (off : Nat) (xs : List β) (off' : Nat),
      off ≤ data.length →
      XDRDecoder.decode_arrayN dec n data off = .ok (xs, off') →
      off' ≤ data.length := by
  intro n
  induction n with
  | zero =>
    intro data off xs off' hoff h
    unfold XDRDecoder.decode_arrayN at h
    cases h
    exact hoff
  | succ n ih =>
    intro data off xs off' hoff h
    unfold XDRDecoder.decode_arrayN at h
    cases h1 : dec data off with
    | error e => simp only [h1] at h; cases h
    | ok p1 =>
      obtain ⟨x, o1⟩ := p1
      simp only [h1] at h
      cases h2 : XDRDecoder.decode_arrayN dec n data o1 with
      | error e => simp only [h2] at h; cases h
      | ok p2 =>
        obtain ⟨ys, o2⟩ := p2
        simp only [h2] at h
        cases h
        exact ih data o1 ys off' (hdec data off x o1 hoff h1) h2

theorem decode_array_bound {β : Type}
    {dec : List Nat → Nat → Except String (β × Nat)}
    (hdec : ∀ data off v off', off ≤ data.length →
      dec data off = .ok (v, off') → off' ≤ data.length)
    {data : List Nat} {off : Nat} {xs : List β} {off' : Nat}
    (h : XDRDecoder.decode_array dec data off = .ok (xs, off')) :
    off' ≤ data.length := by
  unfold XDRDecoder.decode_array at h
  cases h1 : XDRDecoder.decode_uint32 data off with
  | error e => simp only [h1] at h; cases h
  | ok p1 =>
    obtain ⟨n, o1⟩ := p1
    simp only [h1] at h
    exact decode_arrayN_bound hdec n data o1 xs off' (decode_uint32_bound h1) h

theorem decode_data_server_bound {data : List Nat} {off : Nat} {v : DataServer}
    {off' : Nat} (h : XDRDecoder.decode_data_server data off = .ok (v, off')) :
    off' ≤ data.length := by
  unfold XDRDecoder.decode_data_server at h
  cases h1 : XDRDecoder.decode_deviceid data off with
  | error e => simp only [h1] at h; cases h
  | ok p1 =>
    obtain ⟨dev, o1⟩ := p1
    simp only [h1] at h
    cases h2 : XDRDecoder.decode_stateid data o1 with
    | error e => simp only [h2] at h; cases h
    | ok p2 =>
      obtain ⟨sid, o2⟩ := p2
      simp only [h2] at h
      cases h3 : XDRDecoder.decode_array XDRDecoder.decode_filehandle data o2 with
      | error e => simp only [h3] at h; cases h
      | ok p3 =>
        obtain ⟨handles, o3⟩ := p3
        simp only [h3] at h
        cases h4 : XDRDecoder.decode_attributes data o3 with
        | error e => simp only [h4] at h; cases h
        | ok p4 =>
          obtain ⟨attrs, o4⟩ := p4
          simp only [h4] at h
          cases h
          exact decode_attributes_bound h4

theorem decode_mirror_bound {data : List Nat} {off : Nat} {v : Mirror}
    {off' : Nat} (h : XDRDecoder.decode_mirror data off = .ok (v, off')) :
    off' ≤ data.length := by
  unfold XDRDecoder.decode_mirror at h
  cases h1 : XDRDecoder.decode_string data off with
  | error e => simp only [h1] at h; cases h
  | ok p1 =>
    obtain ⟨mid, o1⟩ := p1
    simp only [h1] at h
    cases h2 : XDRDecoder.decode_array XDRDecoder.decode_data_server data o1 with
    | error e => simp only [h2] at h; cases h
    | ok p2 =>
      obtain ⟨servers, o2⟩ := p2
      simp only [h2] at h
      cases h
      exact decode_array_bound
        (fun data off v off' hoff hd => decode_data_server_bound hd) h2

theorem decode_layout_wcc_bound {data : List Nat} {v : Layout} {off' : Nat}
    (h : XDRDecoder.decode_layout_wcc data = .ok (v, off')) :
    off' ≤ data.length := by
  unfold XDRDecoder.decode_layout_wcc at h
  cases h1 : XDRDecoder.decode_uint32 data 0 with
  | error e => simp only [h1] at h; cases h
  | ok p1 =>
    obtain ⟨t, o1⟩ := p1
    simp only [h1] at h
    split at h
    · cases h
    · cases h2 : XDRDecoder.decode_array XDRDecoder.decode_mirror data o1 with
      | error e => simp only [h2] at h; cases h
      | ok p2 =>
        obtain ⟨mirrors, o2⟩ := p2
        simp only [h2] at h
        cases h
        exact decode_array_bound
          (fun data off v off' hoff hd => decode_mirror_bound hd) h2

theorem maskCombine (mask : Nat) :
    ((if mask &&& 1 ≠ 0 then 1 else 0) ||| (if mask &&& 2 ≠ 0 then 2 else 0)) =
      mask &&& 3 := by
  have h3 : mask &&& 3 = mask % 4 := by
    simpa using Nat.and_pow_two_sub_one_eq_mod mask 2
  have h1 : mask &&& 1 = mask % 2 := Nat.and_one_is_mod mask
  have h32 : (3 : Nat) &&& 2 = 2 := by decide
  have h2 : mask &&& 2 = mask % 4 &&& 2 := by
    rw [← h3, Nat.and_assoc, h32]
  have h1' : mask % 2 = mask % 4 % 2 := (Nat.mod_mod_of_dvd mask (by norm_num)).symm
  rw [h3, h1, h2, h1']
  have hr : mask % 4 < 4 := Nat.mod_lt _ (by norm_num)
  interval_cases h : mask % 4 <;> decide

theorem recvLoop_stuck {buf : List Nat} {exp : Nat}
    (h4 : 4 ≤ buf.length) (hlt : buf.length < exp) :
    ∀ (fuel : Nat) (msgs : List (List Nat)),
      NFSProtocolHandler.recvLoop fuel ⟨buf, some exp⟩ msgs = none := by
  intro fuel
  induction fuel with
  | zero => intro msgs; rfl
  | succ n ih =>
    intro msgs
    simp only [NFSProtocolHandler.recvLoop]
    rw [if_pos (show buf.length ≥ 4 from h4),
      if_neg (show ¬ buf.length ≥ exp from Nat.not_le.mpr hlt)]
    exact ih msgs

theorem xidAfter_eq (k : Nat) :
    NFSTransportProtocol.xidAfter k = k % 0xFFFFFFFF := by
  induction k with
  | zero => rfl
  | succ n ih =>
    unfold NFSTransportProtocol.xidAfter
    rw [ih]
    omega

theorem acquireScan_some {it now : Nat} :
    ∀ {pool : List ConnInfo} {cid : Nat} {pool' : List ConnInfo},
      ConnectionManager.acquireScan it now pool = some (cid, pool') →
      ∃ c ∈ pool, c.connId = cid ∧ c.in_use = false ∧
        ConnectionManager.is_connection_expired it now c = false := by
  intro pool
  induction pool with
  | nil => intro cid pool' h; cases h
  | cons c rest ih =>
    intro cid pool' h
    unfold ConnectionManager.acquireScan at h
    by_cases hu : c.in_use
    · rw [if_neg (by simp [hu])] at h
      cases hr : ConnectionManager.acquireScan it now rest with
      | none => rw [hr] at h; cases h
      | some p =>
        obtain ⟨r, rest'⟩ := p
        rw [hr] at h
        cases h
        obtain ⟨c', hc', h1, h2, h3⟩ := ih hr
        exact ⟨c', by simp [hc'], h1, h2, h3⟩
    · rw [if_pos (by simp [hu])] at h
      by_cases hexp : ConnectionManager.is_connection_expired it now c = true
      · rw [if_pos hexp] at h
        cases hr : ConnectionManager.acquireScan it now rest with
        | none => rw [hr] at h; cases h
        | some p =>
          obtain ⟨r, rest'⟩ := p
          rw [hr] at h
          cases h
          obtain ⟨c', hc', h1, h2, h3⟩ := ih hr
          exact ⟨c', by simp [hc'], h1, h2, h3⟩
      · rw [if_neg hexp] at h
        cases h
        exact ⟨c, by simp, rfl, by simpa using hu, by simpa using hexp⟩

theorem acquireScan_none {it now : Nat} :
    ∀ {pool : List ConnInfo},
      (∀ c ∈ pool, c.in_use = false →
        ConnectionManager.is_connection_expired it now c = true) →
      ConnectionManager.acquireScan it now pool = none := by
  intro pool
  induction pool with
  | nil => intro _; rfl
  | cons c rest ih =>
    intro hall
    unfold ConnectionManager.acquireScan
    have hrest := ih (fun c' hc' => hall c' (by simp [hc']))
    by_cases hu : c.in_use
    · rw [if_neg (by simp [hu]), hrest]
    · rw [if_pos (by simp [hu]),
        if_pos (hall c (by simp) (by simpa using hu)), hrest]

theorem lookup_filter_ne {l : List (Nat × CacheEntry)} {a k : Nat}
    (h : ¬ k = a) :
    (l.filter (fun p => !(p.1 = a))).lookup k = l.lookup k := by
  induction l with
  | nil => rfl
  | cons p rest ih =>
    by_cases hp : p.1 = a
    · have hka : (k == a) = false := by simpa using h
      simp [List.filter_cons, hp, List.lookup, hka, ih]
    · simp only [List.filter_cons]
      rw [if_pos (by simpa using hp)]
      cases hk : (k == p.1) with
      | true => simp [List.lookup, hk]
      | false => simp [List.lookup, hk, ih]

theorem lookup_append_some {l₁ l₂ : List (Nat × CacheEntry)} {k : Nat}
    {v : CacheEntry} (h : l₁.lookup k = some v) :
    (l₁ ++ l₂).lookup k = some v := by
  induction l₁ with
  | nil => cases h
  | cons p rest ih =>
    cases hk : (k == p.1) with
    | true =>
      simp [List.lookup, hk] at h
      simp [List.lookup, hk, h]
    | false =>
      simp only [List.lookup, hk] at h
      simp only [List.cons_append, List.lookup, hk]
      exact ih h

/-- Claim C2 (code bug): the inbound reassembler does not tolerate arbitrary
fragmentation. After a first event delivering a 4-byte length prefix
declaring 10 payload bytes plus 1 payload byte (handled fine, partial frame
retained), a second event delivering 4 more bytes leaves the buffer at
5 bytes: the while condition (buffer ≥ 4) stays true, the pending frame
needs 10 bytes, and the loop body changes nothing — `data_received` never
terminates, for any amount of fuel. -/
theorem C2_reassembler_hang :
    NFSProtocolHandler.data_received 8 ⟨[], none⟩ [0, 0, 0, 10, 99] =
      some (⟨[99], some 10⟩, []) ∧
    ∀ fuel : Nat,
      NFSProtocolHandler.data_received fuel ⟨[99], some 10⟩ [1, 2, 3, 4] =
        none := by
  refine ⟨by decide, fun fuel => ?_⟩
  exact recvLoop_stuck (by decide) (by decide) fuel []

theorem C2_reassembler_hang_witness :
    NFSProtocolHandler.data_received 1000000 ⟨[99], some 10⟩ [1, 2, 3, 4] =
      none :=
  C2_reassembler_hang.2 1000000

/-- Claim C3 (code bug): transaction ids increment and wrap modulo 2^32−1
and are pairwise distinct before wraparound, but the id 0 IS issued: the
(2^32−1)-th allocation returns 0, contradicting "the value 0 is never
issued". -/
theorem C3_xid_wraparound :
    (∀ i j : Nat, 1 ≤ i → i < j → j ≤ 2 ^ 32 - 2 →
      NFSTransportProtocol.xidAfter i ≠ NFSTransportProtocol.xidAfter j) ∧
    NFSTransportProtocol.xidAfter (2 ^ 32 - 1) = 0 := by
  constructor
  · intro i j h1 h2 h3
    rw [xidAfter_eq, xidAfter_eq]
    have hj : j < 0xFFFFFFFF := by omega
    have hi : i < 0xFFFFFFFF := by omega
    rw [Nat.mod_eq_of_lt hi, Nat.mod_eq_of_lt hj]
    omega
  · rw [xidAfter_eq]
    decide

theorem C3_xid_wraparound_witness :
    NFSTransportProtocol.xidAfter 1 ≠ NFSTransportProtocol.xidAfter 2 ∧
    NFSTransportProtocol.xidAfter (2 ^ 32 - 1) = 0 :=
  ⟨C3_xid_wraparound.1 1 2 (by decide) (by decide) (by decide),
   C3_xid_wraparound.2⟩

/-- Claim C4 counterexample: encoding a state id whose `other` field is
empty (0 bytes, not 12) SUCCEEDS — the encoder silently NUL-pads it to 12
bytes instead of raising. -/
theorem C4_counterexample :
    XDREncoder.encode_stateid ⟨0, []⟩ =
      .ok (XDREncoder.encode_uint32 3 ++ XDREncoder.encode_uint32 0 ++
        List.replicate 12 0) := by
  rfl

/-- Claim C4 (amended): encoding fails exactly when a device id is not 16
bytes, or a state-id `other` is LONGER than 12 bytes; an `other` shorter
than 12 bytes is silently NUL-padded to 12 bytes and encoded without
error. Device ids are never truncated or padded. -/
theorem C4_amended :
    (∀ dev : List Nat,
      (∃ bs, XDREncoder.encode_deviceid dev = .ok bs) ↔ dev.length = 16) ∧
    (∀ dev bs, XDREncoder.encode_deviceid dev = .ok bs →
      bs = XDREncoder.encode_uint32 2 ++ dev) ∧
    (∀ st : StateId,
      (∃ bs, XDREncoder.encode_stateid st = .ok bs) ↔ st.other.length ≤ 12) ∧
    (∀ st : StateId, st.other.length ≤ 12 →
      XDREncoder.encode_stateid st = .ok (XDREncoder.encode_uint32 3 ++
        XDREncoder.encode_uint32 (st.seqid % 2 ^ 32) ++
        (st.other ++ List.replicate (12 - st.other.length) 0))) := by
  refine ⟨?_, ?_, ?_, ?_⟩
  · intro dev
    constructor
    · rintro ⟨bs, hbs⟩
      by_contra hne
      simp [XDREncoder.encode_deviceid, XDREncoder.encode_fixed_opaque,
        hne] at hbs
    · intro h
      exact ⟨_, encode_deviceid_eq h⟩
  · intro dev bs hbs
    by_cases h : dev.length = 16
    · rw [encode_deviceid_eq h] at hbs
      cases hbs
      simp [deviceidBytes, NFSType.DEVICEID]
    · simp [XDREncoder.encode_deviceid, XDREncoder.encode_fixed_opaque,
        h] at hbs
  · intro st
    constructor
    · rintro ⟨bs, hbs⟩
      by_contra hgt
      have hlen : (ljust st.other 12 0).length = st.other.length := by
        simp [ljust]
        omega
      have hne : ¬ (ljust st.other 12 0).length = 12 := by
        rw [hlen]
        omega
      simp [XDREncoder.encode_stateid, XDREncoder.encode_fixed_opaque,
        hne] at hbs
    · intro h
      exact ⟨_, encode_stateid_eq h⟩
  · intro st h
    have := encode_stateid_eq h
    rw [this]
    simp [stateidBytes, ljust, NFSType.STATEID]

theorem C4_amended_witness :
    (∃ bs, XDREncoder.encode_deviceid (List.replicate 16 0) = .ok bs) ∧
    XDREncoder.encode_stateid ⟨7, [1, 2, 3]⟩ =
      .ok (XDREncoder.encode_uint32 3 ++ XDREncoder.encode_uint32 7 ++
        [1, 2, 3, 0, 0, 0, 0, 0, 0, 0, 0, 0]) :=
  ⟨(C4_amended.1 (List.replicate 16 0)).mpr (by decide),
   C4_amended.2.2.2 ⟨7, [1, 2, 3]⟩ (by decide)⟩

/-- Claim C6 counterexample: with a pool of size 1 holding one idle
connection that has been idle past the idle timeout, acquiring raises
pool-exhausted instead of creating and returning a new connection — the
expired connection is closed but never removed, so it still counts toward
capacity. -/
theorem C6_counterexample :
    ConnectionManager.is_connection_expired 300 1000 ⟨0, false, 0, 0⟩ = true ∧
    ConnectionManager.acquire_connection 1 300 1000 [⟨0, false, 0, 0⟩] =
      .error "Connection pool exhausted" := by
  exact ⟨by decide, by rfl⟩

/-- Claim C6 (amended): an idle connection past the idle timeout is never
the one returned by the acquisition scan; when every idle connection is
expired, a new connection is created and returned only if the pool (which
still counts the closed-but-not-removed expired entries) is below
`pool_size`, and otherwise acquire fails with pool-exhausted. -/
theorem C6_amended (pool_size it now : Nat) (pool : List ConnInfo) :
    (∀ cid pool',
      ConnectionManager.acquireScan it now pool = some (cid, pool') →
      ∃ c ∈ pool, c.connId = cid ∧ c.in_use = false ∧
        ConnectionManager.is_connection_expired it now c = false) ∧
    ((∀ c ∈ pool, c.in_use = false →
        ConnectionManager.is_connection_expired it now c = true) →
      (pool.length < pool_size →
        ConnectionManager.acquire_connection pool_size it now pool =
          .ok (pool.length, pool ++ [⟨pool.length, true, now, now⟩])) ∧
      (pool_size ≤ pool.length →
        ConnectionManager.acquire_connection pool_size it now pool =
          .error "Connection pool exhausted")) := by
  constructor
  · intro cid pool' h
    exact acquireScan_some h
  · intro hall
    have hn := acquireScan_none hall
    constructor
    · intro hlt
      simp [ConnectionManager.acquire_connection, hn, hlt]
    · intro hge
      have hnlt : ¬ pool.length < pool_size := by omega
      simp [ConnectionManager.acquire_connection, hn, hnlt]

theorem C6_amended_witness :
    ConnectionManager.acquire_connection 2 300 1000 [⟨0, false, 0, 0⟩] =
      .ok (1, [⟨0, false, 0, 0⟩, ⟨1, true, 1000, 1000⟩]) :=
  ((C6_amended 2 300 1000 [⟨0, false, 0, 0⟩]).2 (by decide)).1 (by decide)

/-- Claim C7: decoding is truncation-safe — any read or skip that would
need bytes past the end of the buffer fails with the truncation error, and
a successful LAYOUT_WCC decode finishes with its offset within the buffer,
never having read past the end. -/
theorem C7_truncation_safety (data : List Nat) :
    (∀ off len, data.length < off + len →
      XDRDecoder.read_bytes data off len = .error "Unexpected end of data" ∧
      XDRDecoder.skip_bytes data off len = .error "Unexpected end of data") ∧
    (∀ v off', XDRDecoder.decode_layout_wcc data = .ok (v, off') →
      off' ≤ data.length) := by
  constructor
  · intro off len h
    constructor
    · unfold XDRDecoder.read_bytes
      rw [if_pos (by omega)]
    · unfold XDRDecoder.skip_bytes
      rw [if_pos (by omega)]
  · intro v off' h
    exact decode_layout_wcc_bound h

theorem C7_truncation_safety_witness :
    XDRDecoder.read_bytes [0, 0] 0 4 = .error "Unexpected end of data" ∧
    XDRDecoder.skip_bytes [0, 0] 0 4 = .error "Unexpected end of data" :=
  (C7_truncation_safety [0, 0]).1 0 4 (by decide)

/-- Claim C10: with max_retries = 0 the attempt loop never runs, so
`execute_with_recovery` returns None without invoking the operation (zero
calls) and without raising, while the fresh metrics for the operation id
are still recorded (retries 0, success false, no error). -/
theorem C10_zero_retries (cfg : RetryConfig) (h : cfg.max_retries = 0)
    (op : Nat → AttemptOutcome) :
    ErrorRecoveryManager.execute_with_recovery cfg op =
      ⟨.noneResult, ⟨0, false, none⟩, [], 0⟩ := by
  unfold ErrorRecoveryManager.execute_with_recovery
  rw [h]
  rfl

theorem C10_zero_retries_witness :
    ErrorRecoveryManager.execute_with_recovery ⟨0, 1, 30, 2⟩
      (fun _ => .success 5) = ⟨.noneResult, ⟨0, false, none⟩, [], 0⟩ :=
  C10_zero_retries ⟨0, 1, 30, 2⟩ rfl (fun _ => .success 5)

/-- Claim C1 counterexample: for a well-formed layout with one data server
(16-byte device id, 12-byte `other`), encode succeeds and decode succeeds,
but the decoded layout differs from the original — the device id comes
back as the hex rendering of its bytes. -/
theorem C1_counterexample :
    (XDREncoder.encode_layout_wcc
        ⟨[⟨[], [⟨List.replicate 16 97, ⟨0, List.replicate 12 98⟩, [],
          ⟨none, none⟩⟩]⟩]⟩).bind
      (fun bs => (XDRDecoder.decode_layout_wcc bs).map Prod.fst) =
      .ok (roundtripLayout ⟨[⟨[], [⟨List.replicate 16 97,
        ⟨0, List.replicate 12 98⟩, [], ⟨none, none⟩⟩]⟩]⟩) ∧
    roundtripLayout ⟨[⟨[], [⟨List.replicate 16 97, ⟨0, List.replicate 12 98⟩,
      [], ⟨none, none⟩⟩]⟩]⟩ ≠
    ⟨[⟨[], [⟨List.replicate 16 97, ⟨0, List.replicate 12 98⟩, [],
      ⟨none, none⟩⟩]⟩]⟩ :=
  ⟨by rfl, by decide⟩

/-- Claim C1 (amended): for every well-formed layout descriptor, encoding
succeeds and decoding the encoded bytes succeeds, consuming the whole
buffer — but it returns the descriptor with every device id and file
handle replaced by the hex rendering of its bytes and every state-id
`other` NUL-padded to 12 bytes (`roundtripLayout`), not the original
descriptor. -/
theorem C1_roundtrip_amended (d : Layout) (hwf : WFLayout d) :
    XDREncoder.encode_layout_wcc d = .ok (layoutBytes d) ∧
    XDRDecoder.decode_layout_wcc (layoutBytes d) =
      .ok (roundtripLayout d, (layoutBytes d).length) :=
  ⟨encode_layout_eq d hwf, decode_layout_spec d hwf⟩

theorem C1_roundtrip_witness :
    XDREncoder.encode_layout_wcc ⟨[⟨[], [⟨List.replicate 16 97,
        ⟨0, List.replicate 12 98⟩, [], ⟨none, none⟩⟩]⟩]⟩ =
      .ok (layoutBytes ⟨[⟨[], [⟨List.replicate 16 97,
        ⟨0, List.replicate 12 98⟩, [], ⟨none, none⟩⟩]⟩]⟩) ∧
    XDRDecoder.decode_layout_wcc (layoutBytes ⟨[⟨[], [⟨List.replicate 16 97,
        ⟨0, List.replicate 12 98⟩, [], ⟨none, none⟩⟩]⟩]⟩) =
      .ok (roundtripLayout ⟨[⟨[], [⟨List.replicate 16 97,
          ⟨0, List.replicate 12 98⟩, [], ⟨none, none⟩⟩]⟩]⟩,
        (layoutBytes ⟨[⟨[], [⟨List.replicate 16 97,
          ⟨0, List.replicate 12 98⟩, [], ⟨none, none⟩⟩]⟩]⟩).length) :=
  C1_roundtrip_amended _
    (by simp [WFLayout, WFMirror, WFServer, WFAttrs])

/-- Claim C5 (code bug): the retry engine's failure path is unreachable as
specified. ErrorRecovery.py neither imports nor defines NFSTransportError or
NFSStateError, so evaluating `except (NFSTransportError, NFSStateError)` on
any failing attempt raises NameError immediately — no backoff sleep, no
retry, no retries increment, and the underlying error is never re-raised.
Evaluated at the spec's own retry-timing example (max_retries 3, base_delay
1, max_delay 30, exponential_base 2, an operation failing transiently on the
first two attempts and succeeding on the third): the run stops after a
single invocation with the NameError raised, recorded retries 0, no recorded
error text and no sleeps — instead of succeeding with retries = 2 and
backoff delays 1 and 2. -/
theorem C5_retry_nameerror :
    ErrorRecoveryManager.execute_with_recovery ⟨3, 1, 30, 2⟩
      (fun i => if i < 2 then .transient "boom" else .success 7) =
      ⟨.raised "NameError: name 'NFSTransportError' is not defined",
        ⟨0, false, none⟩, [], 1⟩ := by
  rfl

/-- Claim C8 counterexample: an attribute-set wire value whose bitmask is 4
(only an unknown/reserved bit set) decodes to the empty attribute set, and
re-encoding that set computes mask 0 — the unknown bit is lost, not
round-tripped. -/
theorem C8_counterexample :
    XDRDecoder.decode_attributes (attrWire 4 0 0) 0 = .ok (⟨none, none⟩, 8) ∧
    XDREncoder.calculate_attribute_mask ⟨none, none⟩ = 0 ∧ (4 : Nat) ≠ 0 :=
  ⟨by rfl, by decide, by decide⟩

/-- Claim C8 (amended): decoding an attribute-set wire value with any
bitmask and then recomputing the mask from the decoded set yields
mask &&& 3 — the two known bits survive a decode/re-encode round trip, but
all unknown/reserved bits are cleared, not preserved. -/
theorem C8_amended (mask sz mt : Nat) (hmask : mask < 2 ^ 32)
    (hsz : sz < 2 ^ 64) (hmt : mt < 2 ^ 64) :
    ∃ a : Attrs,
      XDRDecoder.decode_attributes (attrWire mask sz mt) 0 =
        .ok (a, (attrWire mask sz mt).length) ∧
      XDREncoder.calculate_attribute_mask a = mask &&& 3 := by
  by_cases b1 : mask &&& 1 = 0 <;> by_cases b2 : mask &&& 2 = 0
  · -- no attribute present
    have h0 : (attrWire mask sz mt).drop 0 =
        XDREncoder.encode_uint32 NFSType.ATTRIBUTE ++
          (XDREncoder.encode_uint32 mask ++ []) := by
      simp [attrWire, b1, b2]
    obtain ⟨hu, hd1, hb1⟩ := decode_uint32_spec NFSType.ATTRIBUTE
      (Nat.zero_le _) h0
    rw [show (0 : Nat) + 4 = 4 from rfl] at hu hd1 hb1
    have hu' : XDRDecoder.decode_uint32 (attrWire mask sz mt) 0 =
        .ok (5, 4) := by simpa [NFSType.ATTRIBUTE] using hu
    obtain ⟨hm, hd2, hb2⟩ := decode_uint32_spec mask hb1 hd1
    rw [show (4 : Nat) + 4 = 8 from rfl] at hm hd2 hb2
    rw [Nat.mod_eq_of_lt hmask] at hm
    have hp1 : (decide (mask &&& 1 ≠ 0)) = false := by simp [b1]
    have hp2 : (decide (mask &&& 2 ≠ 0)) = false := by simp [b2]
    have hlen : (attrWire mask sz mt).length = 8 := by
      simp [attrWire, b1, b2, XDREncoder.encode_uint32]
    refine ⟨⟨none, none⟩, ?_, ?_⟩
    · rw [hlen]
      simp [XDRDecoder.decode_attributes, hu', hm, hp1, hp2, b1, b2,
        XDRDecoder.decode_attr_field, NFSType.ATTRIBUTE]
    · rw [← maskCombine mask]
      simp [XDREncoder.calculate_attribute_mask, b1, b2]
  · -- only mtime present
    have h0 : (attrWire mask sz mt).drop 0 =
        XDREncoder.encode_uint32 NFSType.ATTRIBUTE ++
          (XDREncoder.encode_uint32 mask ++
            (XDREncoder.encode_uint64 mt ++ [])) := by
      simp [attrWire, b1, b2]
    obtain ⟨hu, hd1, hb1⟩ := decode_uint32_spec NFSType.ATTRIBUTE
      (Nat.zero_le _) h0
    rw [show (0 : Nat) + 4 = 4 from rfl] at hu hd1 hb1
    have hu' : XDRDecoder.decode_uint32 (attrWire mask sz mt) 0 =
        .ok (5, 4) := by simpa [NFSType.ATTRIBUTE] using hu
    obtain ⟨hm, hd2, hb2⟩ := decode_uint32_spec mask hb1 hd1
    rw [show (4 : Nat) + 4 = 8 from rfl] at hm hd2 hb2
    rw [Nat.mod_eq_of_lt hmask] at hm
    obtain ⟨hv, hd3, hb3⟩ := decode_uint64_spec mt hb2 hd2
    rw [show (8 : Nat) + 8 = 16 from rfl] at hv hd3 hb3
    rw [Nat.mod_eq_of_lt hmt] at hv
    have hp1 : (decide (mask &&& 1 ≠ 0)) = false := by simp [b1]
    have hp2 : (decide (mask &&& 2 ≠ 0)) = true := by simp [b2]
    have hlen : (attrWire mask sz mt).length = 16 := by
      simp [attrWire, b1, b2, XDREncoder.encode_uint32,
        XDREncoder.encode_uint64]
    refine ⟨⟨none, some mt⟩, ?_, ?_⟩
    · rw [hlen]
      simp [XDRDecoder.decode_attributes, hu', hm, hp1, hp2, hv, b1, b2,
        XDRDecoder.decode_attr_field, NFSType.ATTRIBUTE]
    · rw [← maskCombine mask]
      simp [XDREncoder.calculate_attribute_mask, b1, b2]
  · -- only size present
    have b1m : mask % 2 = 1 := by
      rw [Nat.and_one_is_mod] at b1
      omega
    have h0 : (attrWire mask sz mt).drop 0 =
        XDREncoder.encode_uint32 NFSType.ATTRIBUTE ++
          (XDREncoder.encode_uint32 mask ++
            (XDREncoder.encode_uint64 sz ++ [])) := by
      simp [attrWire, b1m, b2]
    obtain ⟨hu, hd1, hb1⟩ := decode_uint32_spec NFSType.ATTRIBUTE
      (Nat.zero_le _) h0
    rw [show (0 : Nat) + 4 = 4 from rfl] at hu hd1 hb1
    have hu' : XDRDecoder.decode_uint32 (attrWire mask sz mt) 0 =
        .ok (5, 4) := by simpa [NFSType.ATTRIBUTE] using hu
    obtain ⟨hm, hd2, hb2⟩ := decode_uint32_spec mask hb1 hd1
    rw [show (4 : Nat) + 4 = 8 from rfl] at hm hd2 hb2
    rw [Nat.mod_eq_of_lt hmask] at hm
    obtain ⟨hv, hd3, hb3⟩ := decode_uint64_spec sz hb2 hd2
    rw [show (8 : Nat) + 8 = 16 from rfl] at hv hd3 hb3
    rw [Nat.mod_eq_of_lt hsz] at hv
    have hp1 : (decide (mask &&& 1 ≠ 0)) = true := by simp [b1m]
    have hp2 : (decide (mask &&& 2 ≠ 0)) = false := by simp [b2]
    have hlen : (attrWire mask sz mt).length = 16 := by
      simp [attrWire, b1m, b2, XDREncoder.encode_uint32,
        XDREncoder.encode_uint64]
    refine ⟨⟨some sz, none⟩, ?_, ?_⟩
    · rw [hlen]
      simp [XDRDecoder.decode_attributes, hu', hm, hp1, hp2, hv, b1m, b2,
        XDRDecoder.decode_attr_field, NFSType.ATTRIBUTE]
    · rw [← maskCombine mask]
      simp [XDREncoder.calculate_attribute_mask, b1m, b2]
  · -- both present
    have b1m : mask % 2 = 1 := by
      rw [Nat.and_one_is_mod] at b1
      omega
    have h0 : (attrWire mask sz mt).drop 0 =
        XDREncoder.encode_uint32 NFSType.ATTRIBUTE ++
          (XDREncoder.encode_uint32 mask ++
            (XDREncoder.encode_uint64 sz ++
              (XDREncoder.encode_uint64 mt ++ []))) := by
      simp [attrWire, b1m, b2]
    obtain ⟨hu, hd1, hb1⟩ := decode_uint32_spec NFSType.ATTRIBUTE
      (Nat.zero_le _) h0
    rw [show (0 : Nat) + 4 = 4 from rfl] at hu hd1 hb1
    have hu' : XDRDecoder.decode_uint32 (attrWire mask sz mt) 0 =
        .ok (5, 4) := by simpa [NFSType.ATTRIBUTE] using hu
    obtain ⟨hm, hd2, hb2⟩ := decode_uint32_spec mask hb1 hd1
    rw [show (4 : Nat) + 4 = 8 from rfl] at hm hd2 hb2
    rw [Nat.mod_eq_of_lt hmask] at hm
    obtain ⟨hv, hd3, hb3⟩ := decode_uint64_spec sz hb2 hd2
    rw [show (8 : Nat) + 8 = 16 from rfl] at hv hd3 hb3
    rw [Nat.mod_eq_of_lt hsz] at hv
    obtain ⟨hw, hd4, hb4⟩ := decode_uint64_spec mt hb3 hd3
    rw [show (16 : Nat) + 8 = 24 from rfl] at hw hd4 hb4
    rw [Nat.mod_eq_of_lt hmt] at hw
    have hp1 : (decide (mask &&& 1 ≠ 0)) = true := by simp [b1m]
    have hp2 : (decide (mask &&& 2 ≠ 0)) = true := by simp [b2]
    have hlen : (attrWire mask sz mt).length = 24 := by
      simp [attrWire, b1m, b2, XDREncoder.encode_uint32,
        XDREncoder.encode_uint64]
    refine ⟨⟨some sz, some mt⟩, ?_, ?_⟩
    · rw [hlen]
      simp [XDRDecoder.decode_attributes, hu', hm, hp1, hp2, hv, hw, b1m, b2,
        XDRDecoder.decode_attr_field, NFSType.ATTRIBUTE]
    · rw [← maskCombine mask]
      simp [XDREncoder.calculate_attribute_mask, b1m, b2]

theorem C8_amended_witness :
    ∃ a : Attrs,
      XDRDecoder.decode_attributes (attrWire 5 42 0) 0 =
        .ok (a, (attrWire 5 42 0).length) ∧
      XDREncoder.calculate_attribute_mask a = 5 &&& 3 :=
  C8_amended 5 42 0 (by decide) (by decide) (by decide)

/-- Claim C9: looking up a present-but-expired key returns None, yet the
underlying `LRUCache.get` still moves the key to the most-recently-used end
of the recency order and leaves the entry in the table; a subsequent
capacity eviction (inserting a fresh key at capacity) therefore evicts the
now-least-recently-used other key, and the expired entry survives. -/
theorem C9_expired_get_refreshes_mru (now : Nat) (c : LRUCache) (k : Nat)
    (e : CacheEntry) (hlookup : c.cache.lookup k = some e)
    (hexp : now - e.timestamp > e.ttl) (hnodup : c.usage.Nodup)
    (hk : k ∈ c.usage) :
    (PerformanceOptimizer.get_cached_layout now c k).1 = none ∧
    (PerformanceOptimizer.get_cached_layout now c k).2.cache = c.cache ∧
    (PerformanceOptimizer.get_cached_layout now c k).2.usage =
      c.usage.erase k ++ [k] ∧
    (∀ (k' : Nat) (v : CacheEntry) (j : Nat), j ∈ c.usage → j ≠ k →
      c.cache.lookup k' = none → c.capacity ≤ c.cache.length →
      ∃ c'' : LRUCache,
        LRUCache.set (PerformanceOptimizer.get_cached_layout now c k).2 k' v =
          .ok c'' ∧ c''.cache.lookup k = some e) := by
  have hget : PerformanceOptimizer.get_cached_layout now c k =
      (none, { c with usage := c.usage.erase k ++ [k] }) := by
    simp [PerformanceOptimizer.get_cached_layout, LRUCache.get, hlookup,
      PerformanceOptimizer.is_expired, hexp]
  refine ⟨by rw [hget], by rw [hget], by rw [hget], ?_⟩
  intro k' v j hj hjk hk' hcap
  rw [hget]
  dsimp only
  have hjk' : j ∈ c.usage.erase k := by
    rw [List.mem_erase_of_ne hjk]
    exact hj
  obtain ⟨a, t, hat⟩ : ∃ a t, c.usage.erase k = a :: t := by
    cases hcase : c.usage.erase k with
    | nil => rw [hcase] at hjk'; cases hjk'
    | cons x xs => exact ⟨x, xs, rfl⟩
  have hak : ¬ a = k := by
    intro hcontra
    subst hcontra
    have hmem : a ∈ c.usage.erase a := by rw [hat]; simp
    have h2 := (List.Nodup.mem_erase_iff hnodup).mp hmem
    exact h2.1 rfl
  have hka : ¬ k = a := fun hx => hak hx.symm
  have hset : LRUCache.set { c with usage := c.usage.erase k ++ [k] } k' v =
      .ok ⟨c.capacity, (c.cache.filter (fun p => !(p.1 = a))) ++ [(k', v)],
        (t ++ [k]) ++ [k']⟩ := by
    simp [LRUCache.set, hk', hat, hcap]
  refine ⟨_, hset, ?_⟩
  dsimp only
  exact lookup_append_some (by rw [lookup_filter_ne hka]; exact hlookup)

theorem C9_expired_get_witness :
    (PerformanceOptimizer.get_cached_layout 5
      ⟨2, [(1, ⟨10, 0, 3⟩), (2, ⟨20, 0, 999⟩)], [1, 2]⟩ 1).1 = none ∧
    (PerformanceOptimizer.get_cached_layout 5
      ⟨2, [(1, ⟨10, 0, 3⟩), (2, ⟨20, 0, 999⟩)], [1, 2]⟩ 1).2.usage = [2, 1] ∧
    (∃ c'' : LRUCache,
      LRUCache.set (PerformanceOptimizer.get_cached_layout 5
        ⟨2, [(1, ⟨10, 0, 3⟩), (2, ⟨20, 0, 999⟩)], [1, 2]⟩ 1).2 3 ⟨30, 5, 60⟩ =
        .ok c'' ∧ c''.cache.lookup 1 = some ⟨10, 0, 3⟩) := by
  have h := C9_expired_get_refreshes_mru 5
    ⟨2, [(1, ⟨10, 0, 3⟩), (2, ⟨20, 0, 999⟩)], [1, 2]⟩ 1 ⟨10, 0, 3⟩
    (by rfl) (by decide) (by decide) (by decide)
  exact ⟨h.1, h.2.2.1, h.2.2.2 3 ⟨30, 5, 60⟩ 2 (by decide) (by decide)
    (by rfl) (by decide)⟩
